import Mathlib

/-
Verification model of futbol-mp-backend (src/server.js, second server
variant, the one all claim line references point to): the slot-capacity
aware booking confirmation engine, the daily settlement ledger, the
Mercado Pago webhook handler and the manual check approve / reject flow.

Modelling conventions:
- Firestore documents become Lean structures; collections become
  association lists keyed by document id / path components.
- Firestore transactions are total Lean functions returning
  `Except String (State × result)`; an aborted transaction is `.error`
  and by Firestore semantics writes nothing, so the caller keeps the
  pre-state.
- JS numbers that the engine stores in the `tipo` field are restricted
  to integers, matching the source comment that `tipo` ranges over the
  court sizes 5..11 (possibly as text); `Number(x)` on strings is
  modelled by `jsStrToInt`, with `none` standing for NaN or a
  non-integer result.
- `FieldValue.serverTimestamp()` is modelled by an explicit `now : Nat`
  parameter threaded into every operation.
- Firestore auto-generated document ids are modelled by a `nextId`
  counter on the state; a query `.limit(n)` becomes `List.take`, and a
  non-positive limit (which Firestore rejects, aborting the
  transaction) is modelled as an empty result, which likewise makes the
  capacity check abort.
-/

namespace FutbolMP

/-- Value stored in (or supplied for) the `tipo` field: a JS number
(restricted to integers, the domain of court types) or a string. -/
inductive TipoVal where
  | num (n : Int)
  | str (s : String)
deriving DecidableEq, Repr

/-- A whitespace character as JS string trimming sees it. -/
def jsWhitespace (c : Char) : Bool :=
  c = ' ' ∨ c = '\t' ∨ c = '\n' ∨ c = '\r'

/-- Models JS `s.trim()`: strip leading and trailing whitespace. -/
def jsTrim (s : String) : String :=
  String.mk (((s.data.dropWhile jsWhitespace).reverse.dropWhile jsWhitespace).reverse)

/-- Models JS `s.toLowerCase()` over the modelled character range. -/
def jsToLower (s : String) : String :=
  String.mk (s.data.map Char.toLower)

/-- The numeric value of a decimal digit. -/
def digitVal (c : Char) : Option Nat :=
  if c.isDigit then some (c.toNat - 48) else none

/-- Parse a non-empty all-digit list as a natural number. -/
def digitsToNat (l : List Char) : Option Nat :=
  if l = [] then none
  else
    l.foldl
      (fun acc c =>
        match acc, digitVal c with
        | some a, some d => some (a * 10 + d)
        | _, _ => none)
      (some 0)

/-- Parse an optionally negated all-digit list as an integer. -/
def parseIntChars : List Char → Option Int
  | [] => none
  | c :: t =>
    if c = '-' then (digitsToNat t).map (fun n => -(n : Int))
    else (digitsToNat (c :: t)).map (fun n => (n : Int))

/-- Models JS `Number(s)` for a string `s`, restricted to integer
results: JS trims whitespace, maps the empty (all-whitespace) string to
0, and `none` stands for NaN (or a non-integer, out of the modelled
domain). Leading-zero forms like "05" parse to 5, as in JS. -/
def jsStrToInt (s : String) : Option Int :=
  let t := (jsTrim s).data
  if t = [] then some 0 else parseIntChars t

/-- Models JS `s.split(sep)` for the one-character reference separator:
split the character list on the pipe. -/
def splitPipeChars : List Char → List (List Char)
  | [] => [[]]
  | c :: t =>
    let r := splitPipeChars t
    if c = '|' then [] :: r
    else
      match r with
      | h :: rt => (c :: h) :: rt
      | [] => [[c]]

/-- Models JS `ref.split("|")`. -/
def jsSplitPipe (s : String) : List String :=
  (splitPipeChars s.data).map String.mk

/-- Models JS `Number(x)` for `x` a tipo value. -/
def jsNumberVal : TipoVal → Option Int
  | .num n => some n
  | .str s => jsStrToInt s

/-- Models JS `String(x)` for `x` a tipo value. -/
def tipoValToString : TipoVal → String
  | .num n => toString n
  | .str s => s

/-- Models JS `String(Number(x))`; NaN prints as "NaN". -/
def jsStringOfNumber (tv : TipoVal) : String :=
  match jsNumberVal tv with
  | some n => toString n
  | none => "NaN"

/-- normalizeTipoForQuery (server.js lines 590-595): a numeric input is
returned as the number (for a JS number `n` the test
`${n} === String(n).trim()` always holds, so that case is immediate);
a string is returned as the parsed number when it round-trips, else as
the trimmed lower-cased slug. -/
def normalizeTipoForQuery : TipoVal → TipoVal
  | .num n => .num n
  | .str s =>
    match jsStrToInt s with
    | some n => if toString n = jsTrim s then .num n else .str (jsToLower (jsTrim s))
    | none => .str (jsToLower (jsTrim s))

/-- Association-list lookup (first match), modelling a keyed document
fetch. -/
def lookupA {α β : Type} [DecidableEq α] : List (α × β) → α → Option β
  | [], _ => none
  | (k1, v) :: t, k => if k1 = k then some v else lookupA t k

/-- Association-list update-or-insert, modelling a keyed document
write. -/
def setA {α β : Type} [DecidableEq α] : List (α × β) → α → β → List (α × β)
  | [], k, v => [(k, v)]
  | (k1, v1) :: t, k, v => if k1 = k then (k, v) :: t else (k1, v1) :: setA t k v

/-- A facility document: `canchas` maps a tipo key (string) to the
configured capacity. -/
structure Complejo where
  canchas : List (String × Int)
deriving DecidableEq, Repr

/-- The `pago` sub-record written onto a booking. -/
structure Pago where
  mp_payment_id : String
  status : String
  date_approved : Option Nat := none
  amount : Option Int := none
  amount_base : Option Int := none
  amount_base_fraction : Option Int := none
  commission : Option Int := none
  amount_total : Option Int := none
  payFull : Option Bool := none
  deposit_pct : Option Int := none
  manual : Bool := false
deriving DecidableEq, Repr

/-- The reviewer / contact fields the manual approve path merges onto a
booking (the webhook path merges only `pago`). -/
structure ApproveExtras where
  userId : String
  fullName : Option String := none
  email : Option String := none
  phone : Option String := none
  complejoNombre : Option String := none
  address : Option String := none
  createdBy : String
  channel : String
deriving DecidableEq, Repr

/-- payloadToMerge of upsertConfirmedAtSlot: the webhook caller passes
only a `pago` key, the manual approve caller passes `pago` plus the
reviewer / contact keys (`extras`). -/
structure Payload where
  pago : Pago
  extras : Option ApproveExtras := none
deriving DecidableEq, Repr

/-- A booking document (a reserva). -/
structure Booking where
  bid : Nat
  key : Option String := none
  fecha : String
  hora : String
  tipo : TipoVal
  estado : String
  createdAt : Option Nat := none
  updatedAt : Option Nat := none
  channel : Option String := none
  pago : Option Pago := none
  userId : Option String := none
  fullName : Option String := none
  email : Option String := none
  phone : Option String := none
  complejoNombre : Option String := none
  address : Option String := none
  createdBy : Option String := none
deriving DecidableEq, Repr

/-- A manual-payment check document. -/
structure Check where
  estado : String
  userId : Option String := none
  complejoId : Option String := none
  fecha : Option String := none
  hora : Option String := none
  tipo : Option TipoVal := none
  monto : Option Int := none
  createdByName : Option String := none
  userName : Option String := none
  displayName : Option String := none
  createdByEmail : Option String := none
  userEmail : Option String := none
  createdByPhone : Option String := none
  userPhone : Option String := none
  complejoName : Option String := none
  address : Option String := none
  reviewedAt : Option Nat := none
  reviewedBy : Option String := none
  reason : Option String := none
deriving DecidableEq, Repr

/-- A settlement line item: liquidaciones/cid/days/fecha/pagos/pid. -/
structure PagoItem where
  mp_payment_id : String
  status : String
  createdAt : Nat
  total_charged : Int
  commission : Int
  base_fraction : Int
  payFull : Bool
  deposit_pct : Option Int
  manual : Bool
deriving DecidableEq, Repr

/-- A daily settlement aggregate document: liquidaciones/cid/days/fecha. -/
structure DayAgg where
  complejoId : String
  fecha : String
  createdAt : Nat
  updatedAt : Nat
  pagado : Bool
  pagadoAt : Option Nat
  count_total : Int
  count_full : Int
  count_deposit : Int
  sum_total_charged : Int
  sum_commission : Int
  sum_base_fraction : Int
  sum_net_to_complex : Int
deriving DecidableEq, Repr

/-- The settlement ledger: the day documents and the pago line items
(kept side by side, as in Firestore a subcollection document can exist
independently of its parent document). -/
structure Ledger where
  days : List ((String × String) × DayAgg)
  pagos : List ((String × String × String) × PagoItem)
deriving DecidableEq, Repr

/-- Metadata attached to a Mercado Pago payment record. -/
structure Metadata where
  payFull : Option Bool := none
  deposit_pct : Option Int := none
  basePrice : Option Int := none
  base_fraction_amount : Option Int := none
  commission_fixed : Option Int := none
  total : Option Int := none
  manual : Bool := false
  manual_amount : Option Int := none
deriving DecidableEq, Repr

/-- The payment record fetched from Mercado Pago (or built by the
manual approve path). -/
structure PaymentInfo where
  id : String
  status : String
  transaction_amount : Option Int := none
  external_reference : Option String := none
  date_approved : Option Nat := none
  metadata : Metadata := {}
deriving DecidableEq, Repr

/-- The whole persistent state of the backend. -/
structure ServerState where
  complejos : List (String × Complejo)
  reservas : List (String × List Booking)
  checks : List (String × Check)
  ledger : Ledger
  nextId : Nat
deriving DecidableEq, Repr

/-- The reservas subcollection of one facility (empty when the facility
has no bookings yet). -/
def reservasOf (st : ServerState) (complejoId : String) : List Booking :=
  (lookupA st.reservas complejoId).getD []

/-- The fixed commission per transaction (COMMISSION_FIXED). -/
def COMMISSION_FIXED : Int := 1000

/-
Settlement ledger (server.js lines 517-585, upsertDailySettlement).
-/

/-- Does a settlement line item for this payment id already exist under
the facility / day ledger. -/
def lineItemExists (st : ServerState) (complejoId fecha pid : String) : Bool :=
  (lookupA st.ledger.pagos (complejoId, fecha, pid)).isSome

/-- upsertDailySettlement (server.js lines 517-585): inside one
transaction, return unchanged when the pago line item already exists,
otherwise write the line item, lazily initialise the day document and
increment the aggregates. The JS falsy guard on the arguments is
modelled as an empty-string test (paymentInfo itself is a non-optional
argument of the model). -/
def upsertDailySettlement (st : ServerState) (complejoId fecha : String)
    (info : PaymentInfo) (now : Nat) : ServerState :=
  if complejoId = "" ∨ fecha = "" then st else
  let md := info.metadata
  let isFull := md.payFull.getD false
  let commission := md.commission_fixed.getD 0
  let baseFraction := (md.base_fraction_amount <|> md.manual_amount).getD 0
  let totalCharged := (md.total <|> info.transaction_amount).getD baseFraction
  let pagoKey := (complejoId, fecha, info.id)
  match lookupA st.ledger.pagos pagoKey with
  | some _ => st
  | none =>
    let item : PagoItem :=
      { mp_payment_id := info.id
        status := info.status
        createdAt := now
        total_charged := totalCharged
        commission := commission
        base_fraction := baseFraction
        payFull := isFull
        deposit_pct :=
          if isFull then none
          else (let d := md.deposit_pct.getD 0; if d = 0 then none else some d)
        manual := md.manual }
    let dayKey := (complejoId, fecha)
    let day0 :=
      match lookupA st.ledger.days dayKey with
      | some d => d
      | none =>
        { complejoId := complejoId
          fecha := fecha
          createdAt := now
          updatedAt := now
          pagado := false
          pagadoAt := none
          count_total := 0
          count_full := 0
          count_deposit := 0
          sum_total_charged := 0
          sum_commission := 0
          sum_base_fraction := 0
          sum_net_to_complex := 0 }
    let day1 :=
      { day0 with
        updatedAt := now
        count_total := day0.count_total + 1
        count_full := day0.count_full + (if isFull then 1 else 0)
        count_deposit := day0.count_deposit + (if isFull then 0 else 1)
        sum_total_charged := day0.sum_total_charged + totalCharged
        sum_commission := day0.sum_commission + commission
        sum_base_fraction := day0.sum_base_fraction + baseFraction
        sum_net_to_complex := day0.sum_net_to_complex + baseFraction }
    { st with
      ledger :=
        { days := setA st.ledger.days dayKey day1
          pagos := setA st.ledger.pagos pagoKey item } }

/-
Availability helpers (server.js lines 590-654) and the capacity
transaction (lines 662-718).
-/

/-- The tipo representations the source queries for a normalized tipo,
in query order. The same list is built at the three query sites
(countConfirmedAtSlot, the in-transaction count, the pending lookup):
for a numeric norm the number then its string form; for a slug the slug
then, when it parses, its numeric form. -/
def queryTipos : TipoVal → List TipoVal
  | .num n => [.num n, .str (toString n)]
  | .str s =>
    match jsStrToInt s with
    | some m => [.str s, .num m]
    | none => [.str s]

/-- One slot query filter: fecha, tipo (one representation), hora,
estado confirmada. -/
def matchConfirmed (fecha hora : String) (tv : TipoVal) (b : Booking) : Bool :=
  decide (b.fecha = fecha ∧ b.tipo = tv ∧ b.hora = hora ∧ b.estado = "confirmada")

/-- One pending-slot query filter: estado in [pending, pendiente]. -/
def matchPending (fecha hora : String) (tv : TipoVal) (b : Booking) : Bool :=
  decide (b.fecha = fecha ∧ b.tipo = tv ∧ b.hora = hora ∧
    (b.estado = "pending" ∨ b.estado = "pendiente"))

/-- A booking occupies the slot when it is confirmed under either of
the queried tipo representations (the denotation of the union of the
slot queries, with no limit and no id set). -/
def matchAnyConfirmed (fecha hora : String) (tipoNorm : TipoVal) (b : Booking) : Bool :=
  (queryTipos tipoNorm).any (fun tv => matchConfirmed fecha hora tv b)

/-- The number of bookings occupying a slot (state = confirmada under
either tipo representation). -/
def slotConfirmedCount (st : ServerState) (complejoId fecha : String)
    (tipoNorm : TipoVal) (hora : String) : Nat :=
  ((reservasOf st complejoId).filter (matchAnyConfirmed fecha hora tipoNorm)).length

/-- getCapacityForTipo (server.js lines 597-606): absent facility or
absent key defaults to 1; a non-positive stored value is clamped to 1. -/
def getCapacityForTipo (st : ServerState) (complejoId : String) (tipo : TipoVal) : Int :=
  match lookupA st.complejos complejoId with
  | none => 1
  | some c =>
    let key1 := tipoValToString tipo
    let key2 := jsStringOfNumber tipo
    let cap := ((lookupA c.canchas key1) <|> (lookupA c.canchas key2)).getD 1
    if 0 < cap then cap else 1

/-- countConfirmedAtSlot (server.js lines 608-654): run the slot query
under each tipo representation, union the document ids, return the
size of the union. -/
def countConfirmedAtSlot (st : ServerState) (complejoId fecha : String)
    (tipo : TipoVal) (hora : String) : Nat :=
  let resv := reservasOf st complejoId
  let tipoNorm := normalizeTipoForQuery tipo
  (((queryTipos tipoNorm).flatMap
    (fun tv => ((resv.filter (matchConfirmed fecha hora tv)).map (·.bid)))).dedup).length

/-- The capacity read performed inside confirmWithCapacityTx (server.js
lines 668-673): note the final `|| 1` replaces only a falsy value
(0 or NaN), unlike the `cap > 0` clamp of getCapacityForTipo. Depends
only on the complejos collection, so it takes that collection
directly. -/
def capacidadInTx (complejos : List (String × Complejo)) (complejoId : String)
    (tipoNorm : TipoVal) : Int :=
  let canchas :=
    match lookupA complejos complejoId with
    | some c => c.canchas
    | none => []
  let key1 := tipoValToString tipoNorm
  let key2 := jsStringOfNumber tipoNorm
  let cap := ((lookupA canchas key1) <|> (lookupA canchas key2)).getD 1
  if cap = 0 then 1 else cap

/-- The confirmed-booking ids read inside the transaction (server.js
lines 675-709): each representation query is limited to capacidad + 2
documents, then the ids are unioned. -/
def inTxConfirmedBids (resv : List Booking) (fecha : String) (tipoNorm : TipoVal)
    (hora : String) (capacidad : Int) : List Nat :=
  let lim := (capacidad + 2).toNat
  ((queryTipos tipoNorm).flatMap
    (fun tv => (((resv.filter (matchConfirmed fecha hora tv)).take lim).map (·.bid)))).dedup

/-- A mutator, as passed to confirmWithCapacityTx: from the reservas
list, the normalized tipo and the fresh-id counter it produces the new
reservas list, the new counter and the id of the booking it touched. -/
def Mutator : Type :=
  List Booking → TipoVal → Nat → (List Booking × Nat × Nat)

/-- confirmWithCapacityTx (server.js lines 662-718): inside one
transaction read the capacity, count the confirmed bookings at the
slot (ids unioned over both tipo representations, each query limited
to capacidad + 2), abort when occupancy has reached capacity, else run
the mutator. -/
def confirmWithCapacityTx (st : ServerState) (complejoId fecha : String)
    (tipo : TipoVal) (hora : String) (mutator : Mutator) :
    Except String (ServerState × Nat) :=
  let resv := reservasOf st complejoId
  let tipoNorm := normalizeTipoForQuery tipo
  let capacidad := capacidadInTx st.complejos complejoId tipoNorm
  let confirmadas := (inTxConfirmedBids resv fecha tipoNorm hora capacidad).length
  if capacidad ≤ (confirmadas : Int) then
    Except.error "Sin cupos para ese horario"
  else
    let r := mutator resv tipoNorm st.nextId
    Except.ok
      ({ st with reservas := setA st.reservas complejoId r.1, nextId := r.2.1 }, r.2.2)

/-
upsertConfirmedAtSlot (server.js lines 724-792).
-/

/-- The pending-booking lookup of the mutator: the limit-1 queries run
in order and the first non-empty one wins. -/
def findFirstPending (resv : List Booking) (fecha hora : String)
    (tipoNorm : TipoVal) : Option Booking :=
  (queryTipos tipoNorm).findSome? (fun tv => resv.find? (matchPending fecha hora tv))

/-- Merge of the approve-path reviewer / contact keys onto a booking
(the spread of payloadToMerge; the webhook payload has no such keys). -/
def applyExtras (b : Booking) (extras : Option ApproveExtras) : Booking :=
  match extras with
  | none => b
  | some e =>
    { b with
      userId := some e.userId
      fullName := e.fullName
      email := e.email
      phone := e.phone
      complejoNombre := e.complejoNombre
      address := e.address
      createdBy := some e.createdBy
      channel := some e.channel }

/-- The transition write on a found pending booking: estado confirmada,
the payload merged on top, updatedAt refreshed. -/
def flipToConfirmada (b : Booking) (payload : Payload) (now : Nat) : Booking :=
  let b1 := applyExtras { b with estado := "confirmada" } payload.extras
  { b1 with pago := some payload.pago, updatedAt := some now }

/-- The create write when no pending booking exists: a new document,
directly confirmada, carrying the slot key, channel check and the
payload. -/
def mkNewConfirmada (fecha hora : String) (tipoNorm : TipoVal) (payload : Payload)
    (bid : Nat) (now : Nat) : Booking :=
  let b0 : Booking :=
    { bid := bid
      key := some (fecha ++ "|" ++ tipoValToString tipoNorm ++ "|" ++ hora)
      fecha := fecha
      hora := hora
      tipo := tipoNorm
      estado := "confirmada"
      createdAt := some now
      channel := some "check" }
  let b1 := applyExtras b0 payload.extras
  { b1 with pago := some payload.pago, updatedAt := some now }

/-- upsertConfirmedAtSlot (server.js lines 724-792): under the capacity
transaction, flip the first pending booking of the slot to confirmada,
or create a new confirmada booking when none is pending; returns the id
of the touched booking. -/
def upsertConfirmedAtSlot (st : ServerState) (complejoId fecha : String)
    (tipo : TipoVal) (hora : String) (payload : Payload) (now : Nat) :
    Except String (ServerState × Nat) :=
  confirmWithCapacityTx st complejoId fecha tipo hora
    (fun resv tipoNorm nextId =>
      match findFirstPending resv fecha hora tipoNorm with
      | some b =>
        (resv.map (fun x => if x.bid = b.bid then flipToConfirmada x payload now else x),
          nextId, b.bid)
      | none =>
        let nb := mkNewConfirmada fecha hora tipoNorm payload nextId now
        (resv ++ [nb], nextId + 1, nb.bid))

/-
Webhook handler (server.js lines 797-852).
-/

/-- The pago sub-record the webhook writes from a fetched payment. -/
def webhookPago (info : PaymentInfo) (now : Nat) : Pago :=
  { mp_payment_id := info.id
    status := info.status
    date_approved := some (info.date_approved.getD now)
    amount := info.transaction_amount
    amount_base := info.metadata.basePrice
    amount_base_fraction := info.metadata.base_fraction_amount
    commission := some (info.metadata.commission_fixed.getD COMMISSION_FIXED)
    amount_total := info.metadata.total <|> info.transaction_amount
    payFull := info.metadata.payFull
    deposit_pct := info.metadata.deposit_pct
    manual := false }

/-- The webhook route (server.js lines 797-852). `typeParam` and
`paymentId` model the query / body parameters; `info` models the
payment record the handler fetches from Mercado Pago for that id. Only
an approved payment with a well-formed external reference mutates
state: the capacity transaction runs, and only when it commits is the
daily settlement recorded; every error is caught and answered 200, so a
failed transaction leaves the pre-state. -/
def webhookPost (st : ServerState) (typeParam : String) (paymentId : Option String)
    (info : PaymentInfo) (now : Nat) : ServerState :=
  if jsToLower typeParam = "payment" ∧ paymentId.getD "" ≠ "" then
    if info.status = "approved" then
      match jsSplitPipe (info.external_reference.getD "") with
      | complejoId :: fecha :: tipo :: hora :: _ =>
        if complejoId ≠ "" ∧ fecha ≠ "" ∧ tipo ≠ "" ∧ hora ≠ "" then
          match upsertConfirmedAtSlot st complejoId fecha (.str tipo) hora
              { pago := webhookPago info now } now with
          | .ok r => upsertDailySettlement r.1 complejoId fecha info now
          | .error _ => st
        else st
      | _ => st
    else st
  else st

/-
Manual check approval / rejection (server.js lines 975-1091).
-/

/-- JS chained-or over possibly empty strings ending in null:
the first non-empty entry, else none. -/
def jsOrNullS : List (Option String) → Option String
  | [] => none
  | a :: t => if a.getD "" = "" then jsOrNullS t else a

/-- The tipo a check supplies to the engine; a missing field becomes
the JS string "undefined" once stringified by normalizeTipoForQuery. -/
def checkTipoOf (c : Check) : TipoVal :=
  match c.tipo with
  | some t => t
  | none => .str "undefined"

/-- The payloadToMerge the approve path hands to upsertConfirmedAtSlot:
the manual pago sub-record plus the reviewer / contact keys. -/
def approvePayload (checkId : String) (c : Check) (reviewerUid : Option String)
    (now : Nat) : Payload :=
  { pago :=
      { mp_payment_id := "manual_" ++ checkId
        status := "approved"
        date_approved := some now
        amount := some (c.monto.getD 0)
        amount_base := some (c.monto.getD 0)
        amount_base_fraction := some (c.monto.getD 0)
        commission := some 0
        amount_total := some (c.monto.getD 0)
        payFull := none
        deposit_pct := none
        manual := true }
    extras :=
      some
        { userId := c.userId.getD ""
          fullName := jsOrNullS [c.createdByName, c.userName, c.displayName]
          email := jsOrNullS [c.createdByEmail, c.userEmail]
          phone := jsOrNullS [c.createdByPhone, c.userPhone]
          complejoNombre := c.complejoName
          address := c.address
          createdBy := if reviewerUid.getD "" = "" then "check-bot" else reviewerUid.getD ""
          channel := "check" } }

/-- approveCheckAndConfirmReservation (server.js lines 975-1048):
validate the check (exists, estado pending, required fields truthy),
confirm the reservation through the capacity transaction, mark the
check approved, record the manual settlement. The returned value
models the literal `ok: true` object of the source: note it does not
carry the booking id (the id returned by upsertConfirmedAtSlot is
discarded). -/
def approveCheckAndConfirmReservation (st : ServerState) (checkId : String)
    (reviewerUid : Option String) (now : Nat) : Except String (ServerState × Bool) :=
  match lookupA st.checks checkId with
  | none => Except.error "Check no encontrado"
  | some c =>
    if c.estado ≠ "pending" then Except.error "El check no está pendiente"
    else
      let userId := c.userId.getD ""
      let complejoId := c.complejoId.getD ""
      let fecha := c.fecha.getD ""
      let hora := c.hora.getD ""
      let monto := c.monto.getD 0
      if userId = "" ∨ complejoId = "" ∨ fecha = "" ∨ hora = "" ∨ monto = 0 then
        Except.error "Datos incompletos en el check"
      else
        match upsertConfirmedAtSlot st complejoId fecha (checkTipoOf c) hora
            (approvePayload checkId c reviewerUid now) now with
        | .error e => Except.error e
        | .ok r =>
          let c1 :=
            { c with
              estado := "approved"
              reviewedAt := some now
              reviewedBy :=
                some (if reviewerUid.getD "" = "" then "check-bot" else reviewerUid.getD "") }
          let st2 := { r.1 with checks := setA r.1.checks checkId c1 }
          let st3 :=
            upsertDailySettlement st2 complejoId fecha
              { id := "manual_" ++ checkId
                status := "approved"
                transaction_amount := some monto
                metadata :=
                  { manual := true
                    manual_amount := some monto
                    payFull := none
                    deposit_pct := none
                    commission_fixed := some 0
                    total := some monto } } now
          Except.ok (st3, true)

/-- rejectCheck (server.js lines 1050-1066): validate the check
(exists, estado pending), then mark it rejected with a reason. -/
def rejectCheck (st : ServerState) (checkId : String) (reviewerUid : Option String)
    (reason : Option String) (now : Nat) : Except String (ServerState × Bool) :=
  match lookupA st.checks checkId with
  | none => Except.error "Check no encontrado"
  | some c =>
    if c.estado ≠ "pending" then Except.error "El check no está pendiente"
    else
      let c1 :=
        { c with
          estado := "rejected"
          reviewedAt := some now
          reviewedBy :=
            some (if reviewerUid.getD "" = "" then "check-bot" else reviewerUid.getD "")
          reason := some (if reason.getD "" = "" then "Rechazado" else reason.getD "") }
      Except.ok ({ st with checks := setA st.checks checkId c1 }, true)

/-- An HTTP response of the checks endpoints: the 200 JSON body (the
`ok` flag is everything the success body holds) or an error status with
the message JSON. -/
inductive HttpResp where
  | okJson (ok : Bool)
  | errJson (status : Nat) (message : String)
deriving DecidableEq, Repr

/-- The POST /checks/:id/approve route (server.js lines 1069-1079):
res.json of the approve result on success, status 400 with the error
message otherwise. -/
def checksApprovePost (st : ServerState) (checkId : String)
    (reviewerUid : Option String) (now : Nat) : ServerState × HttpResp :=
  match approveCheckAndConfirmReservation st checkId reviewerUid now with
  | .ok r => (r.1, .okJson r.2)
  | .error e => (st, .errJson 400 e)

/-- The POST /checks/:id/reject route (server.js lines 1081-1091). -/
def checksRejectPost (st : ServerState) (checkId : String)
    (reviewerUid : Option String) (reason : Option String) (now : Nat) :
    ServerState × HttpResp :=
  match rejectCheck st checkId reviewerUid reason now with
  | .ok r => (r.1, .okJson r.2)
  | .error e => (st, .errJson 400 e)

/-
Well-formedness of the document store, and sequences of confirm
attempts.
-/

/-- Well-formedness of one reservas subcollection: Firestore document
ids are unique within a collection, and every modelled id is below the
fresh-id counter. -/
def WFres (resv : List Booking) (nid : Nat) : Prop :=
  (resv.map Booking.bid).Nodup ∧ ∀ b ∈ resv, b.bid < nid

instance (resv : List Booking) (nid : Nat) : Decidable (WFres resv nid) :=
  inferInstanceAs (Decidable ((resv.map Booking.bid).Nodup ∧ ∀ b ∈ resv, b.bid < nid))

/-- Well-formedness of the store: every reservas subcollection is
well-formed. -/
def WF (st : ServerState) : Prop :=
  ∀ p ∈ st.reservas, WFres p.2 st.nextId

instance (st : ServerState) : Decidable (WF st) :=
  inferInstanceAs (Decidable (∀ p ∈ st.reservas, WFres p.2 st.nextId))

/-- A serialized sequence of confirm attempts against one fixed slot
(the storage transactions of concurrent attempts serialize); each
attempt carries its payload and its server timestamp, a failed attempt
leaves the state as it was. -/
def runAttempts (complejoId fecha : String) (tipo : TipoVal) (hora : String) :
    ServerState → List (Payload × Nat) → ServerState
  | st, [] => st
  | st, a :: rest =>
    match upsertConfirmedAtSlot st complejoId fecha tipo hora a.1 a.2 with
    | .ok r => runAttempts complejoId fecha tipo hora r.1 rest
    | .error _ => runAttempts complejoId fecha tipo hora st rest

/-
Concrete fixtures used by the witnesses and counterexamples below.
-/

/-- An empty settlement ledger. -/
def emptyLedger : Ledger := { days := [], pagos := [] }

/-- Fixture for the capacity-invariant witness: capacity 1, no
bookings. -/
def w1State : ServerState :=
  { complejos := [("c1", { canchas := [("5", 1)] })]
    reservas := []
    checks := []
    ledger := emptyLedger
    nextId := 0 }

/-- Three confirm attempts with distinct payment ids. -/
def w1Attempts : List (Payload × Nat) :=
  [({ pago := { mp_payment_id := "A", status := "approved" } }, 1),
   ({ pago := { mp_payment_id := "B", status := "approved" } }, 2),
   ({ pago := { mp_payment_id := "C", status := "approved" } }, 3)]

/-- Fixture for the missing-idempotency counterexample: capacity 2, no
bookings. -/
def c2State0 : ServerState :=
  { complejos := [("c1", { canchas := [("5", 2)] })]
    reservas := []
    checks := []
    ledger := emptyLedger
    nextId := 0 }

/-- One payment (approval id P1), delivered twice. -/
def c2Payload : Payload := { pago := { mp_payment_id := "P1", status := "approved" } }

/-- State after the first delivery of P1. -/
def c2State1 : ServerState :=
  match upsertConfirmedAtSlot c2State0 "c1" "2024-05-01" (.num 5) "18:00" c2Payload 100 with
  | .ok r => r.1
  | .error _ => c2State0

/-- State after the second delivery of P1. -/
def c2State2 : ServerState :=
  match upsertConfirmedAtSlot c2State1 "c1" "2024-05-01" (.num 5) "18:00" c2Payload 200 with
  | .ok r => r.1
  | .error _ => c2State1

/-- The booking id returned by the first delivery of P1. -/
def c2Bid1 : Option Nat :=
  match upsertConfirmedAtSlot c2State0 "c1" "2024-05-01" (.num 5) "18:00" c2Payload 100 with
  | .ok r => some r.2
  | .error _ => none

/-- The booking id returned by the second delivery of P1. -/
def c2Bid2 : Option Nat :=
  match upsertConfirmedAtSlot c2State1 "c1" "2024-05-01" (.num 5) "18:00" c2Payload 200 with
  | .ok r => some r.2
  | .error _ => none

/-- Fixture for the settlement-idempotency witness: a ledger already
holding the line item of payment P9. -/
def w3State : ServerState :=
  { complejos := []
    reservas := []
    checks := []
    ledger :=
      { days :=
          [(("c1", "2024-05-01"),
            { complejoId := "c1", fecha := "2024-05-01", createdAt := 5, updatedAt := 5
              pagado := false, pagadoAt := none
              count_total := 1, count_full := 0, count_deposit := 1
              sum_total_charged := 1300, sum_commission := 1000
              sum_base_fraction := 300, sum_net_to_complex := 300 })]
        pagos :=
          [(("c1", "2024-05-01", "P9"),
            { mp_payment_id := "P9", status := "approved", createdAt := 5
              total_charged := 1300, commission := 1000, base_fraction := 300
              payFull := false, deposit_pct := some 30, manual := false })] }
    nextId := 0 }

/-- The payment record P9, as redelivered. -/
def w3Info : PaymentInfo :=
  { id := "P9"
    status := "approved"
    transaction_amount := some 1300
    metadata :=
      { payFull := some false, deposit_pct := some 30, base_fraction_amount := some 300
        commission_fixed := some 1000, total := some 1300 } }

/-- Fixture for the abort-on-full witness: capacity 1 and one confirmed
booking already at the slot. -/
def w4State : ServerState :=
  { complejos := [("c1", { canchas := [("5", 1)] })]
    reservas :=
      [("c1",
        [{ bid := 3, fecha := "2024-05-01", hora := "18:00", tipo := .num 5
           estado := "confirmada" }])]
    checks := []
    ledger := emptyLedger
    nextId := 4 }

/-- Fixture for the transition-or-create witness: capacity 2, one
pending booking at the slot. -/
def w5State : ServerState :=
  { complejos := [("c1", { canchas := [("5", 2)] })]
    reservas :=
      [("c1",
        [{ bid := 7, fecha := "2024-05-01", hora := "18:00", tipo := .num 5
           estado := "pendiente", userId := some "u7" }])]
    checks := []
    ledger := emptyLedger
    nextId := 8 }

/-- The payload of the transition-or-create witness. -/
def w5Payload : Payload := { pago := { mp_payment_id := "P5", status := "approved" } }

/-- Fixture for the representation-equivalence witness: one booking
stores tipo as the number 5, another as the text "5", both confirmed at
the same slot. -/
def w6State : ServerState :=
  { complejos := [("c1", { canchas := [("5", 4)] })]
    reservas :=
      [("c1",
        [{ bid := 1, fecha := "2024-05-01", hora := "18:00", tipo := .num 5
           estado := "confirmada" },
         { bid := 2, fecha := "2024-05-01", hora := "18:00", tipo := .str "5"
           estado := "confirmada" },
         { bid := 3, fecha := "2024-05-01", hora := "19:00", tipo := .num 5
           estado := "confirmada" }])]
    checks := []
    ledger := emptyLedger
    nextId := 4 }

/-- Fixture refuting the positivity of the in-transaction capacity
read: the stored capacity of tipo 7 is negative. -/
def c7State : ServerState :=
  { complejos := [("c1", { canchas := [("7", -2)] })]
    reservas := []
    checks := []
    ledger := emptyLedger
    nextId := 0 }

/-- Fixture for the amended capacity-positivity witness. -/
def w7State : ServerState :=
  { complejos := [("c1", { canchas := [("5", 3)] })]
    reservas := []
    checks := []
    ledger := emptyLedger
    nextId := 0 }

/-- Fixture for the webhook-frame witness. -/
def w8State : ServerState :=
  { complejos := [("c1", { canchas := [("5", 1)] })]
    reservas :=
      [("c1",
        [{ bid := 0, fecha := "2024-05-01", hora := "18:00", tipo := .num 5
           estado := "pendiente" }])]
    checks := []
    ledger := emptyLedger
    nextId := 1 }

/-- A rejected payment record, as fetched for a webhook delivery. -/
def w8Info : PaymentInfo :=
  { id := "P8"
    status := "rejected"
    transaction_amount := some 1300
    external_reference := some "c1|2024-05-01|5|18:00" }

/-- A complete pending check used by the approve fixtures. -/
def c9Check : Check :=
  { estado := "pending"
    userId := some "u1"
    complejoId := some "c1"
    fecha := some "2024-05-01"
    hora := some "18:00"
    tipo := some (.num 5)
    monto := some 20000 }

/-- Approve fixture A: free slot, no pending booking; approval creates
booking 0. -/
def c9StateA : ServerState :=
  { complejos := [("c1", { canchas := [("5", 1)] })]
    reservas := []
    checks := [("ch1", c9Check)]
    ledger := emptyLedger
    nextId := 0 }

/-- Approve fixture B: same check, but a pending booking with id 5
already holds the slot; approval confirms booking 5. -/
def c9StateB : ServerState :=
  { complejos := [("c1", { canchas := [("5", 1)] })]
    reservas :=
      [("c1",
        [{ bid := 5, fecha := "2024-05-01", hora := "18:00", tipo := .num 5
           estado := "pendiente" }])]
    checks := [("ch1", c9Check)]
    ledger := emptyLedger
    nextId := 6 }

/-- Approve fixture for the capacity-conflict branch: the slot is
already full. -/
def c9StateFull : ServerState :=
  { complejos := [("c1", { canchas := [("5", 1)] })]
    reservas :=
      [("c1",
        [{ bid := 2, fecha := "2024-05-01", hora := "18:00", tipo := .num 5
           estado := "confirmada" }])]
    checks := [("ch1", c9Check)]
    ledger := emptyLedger
    nextId := 3 }

/-- The confirmed booking ids of a facility, in store order. -/
def confirmedBidsOf (st : ServerState) (complejoId : String) : List Nat :=
  ((reservasOf st complejoId).filter (fun b => decide (b.estado = "confirmada"))).map
    Booking.bid

/-- Fixture for the pending-at-most-once witness: one pending check and
one already-approved check. -/
def w10State : ServerState :=
  { complejos := [("c1", { canchas := [("5", 2)] })]
    reservas := []
    checks :=
      [("chP", c9Check),
       ("chA", { c9Check with estado := "approved" })]
    ledger := emptyLedger
    nextId := 0 }

/-
Association-list lemmas.
-/

theorem lookupA_setA_self {α β : Type} [DecidableEq α] (l : List (α × β)) (k : α) (v : β) :
    lookupA (setA l k v) k = some v := by
  induction l with
  | nil => simp [setA, lookupA]
  | cons h t ih =>
    by_cases hk : h.1 = k
    · simp [setA, hk, lookupA]
    · simp only [setA]
      rw [if_neg (by exact hk)]
      simp [lookupA, hk, ih]

theorem lookupA_setA_ne {α β : Type} [DecidableEq α] (l : List (α × β)) (k k1 : α) (v : β)
    (h : k ≠ k1) : lookupA (setA l k v) k1 = lookupA l k1 := by
  induction l with
  | nil => simp [setA, lookupA, h]
  | cons p t ih =>
    by_cases hk : p.1 = k
    · simp [setA, hk, lookupA, h, hk ▸ h]
    · simp only [setA]
      rw [if_neg (by exact hk)]
      by_cases hk1 : p.1 = k1
      · simp [lookupA, hk1]
      · simp [lookupA, hk1, ih]

theorem mem_of_lookupA {α β : Type} [DecidableEq α] {l : List (α × β)} {k : α} {v : β}
    (h : lookupA l k = some v) : (k, v) ∈ l := by
  induction l with
  | nil => simp [lookupA] at h
  | cons p t ih =>
    obtain ⟨a, b⟩ := p
    by_cases hk : a = k
    · simp only [lookupA, if_pos hk] at h
      injection h with hv
      subst hk
      subst hv
      exact List.mem_cons_self _ _
    · simp only [lookupA, if_neg hk] at h
      exact List.mem_cons_of_mem _ (ih h)

theorem mem_setA {α β : Type} [DecidableEq α] {l : List (α × β)} {k : α} {v : β} {p : α × β}
    (h : p ∈ setA l k v) : p = (k, v) ∨ p ∈ l := by
  induction l with
  | nil => simpa [setA] using h
  | cons q t ih =>
    obtain ⟨a, b⟩ := q
    by_cases hk : a = k
    · simp only [setA, if_pos hk] at h
      rcases List.mem_cons.mp h with h1 | h1
      · exact Or.inl h1
      · exact Or.inr (List.mem_cons_of_mem _ h1)
    · simp only [setA, if_neg hk] at h
      rcases List.mem_cons.mp h with h1 | h1
      · exact Or.inr (h1 ▸ List.mem_cons_self _ _)
      · rcases ih h1 with h2 | h2
        · exact Or.inl h2
        · exact Or.inr (List.mem_cons_of_mem _ h2)

/-
Well-formedness lemmas.
-/

theorem WFres_of_WF {st : ServerState} (h : WF st) (complejoId : String) :
    WFres (reservasOf st complejoId) st.nextId := by
  unfold reservasOf
  cases hl : lookupA st.reservas complejoId with
  | none => exact ⟨by simp, by simp⟩
  | some l => exact h (complejoId, l) (mem_of_lookupA hl)

/-
queryTipos and matcher lemmas.
-/

theorem queryTipos_nodup (t : TipoVal) : (queryTipos t).Nodup := by
  cases t with
  | num n => simp [queryTipos]
  | str s =>
    simp only [queryTipos]
    cases jsStrToInt s <;> simp

theorem self_mem_queryTipos (t : TipoVal) : t ∈ queryTipos t := by
  cases t with
  | num n => simp [queryTipos]
  | str s =>
    simp only [queryTipos]
    cases jsStrToInt s <;> simp

theorem matchConfirmed_tipo {fecha hora : String} {tv : TipoVal} {b : Booking}
    (h : matchConfirmed fecha hora tv b = true) : b.tipo = tv := by
  simp only [matchConfirmed, decide_eq_true_eq] at h
  exact h.2.1

theorem matchConfirmed_estado {fecha hora : String} {tv : TipoVal} {b : Booking}
    (h : matchConfirmed fecha hora tv b = true) : b.estado = "confirmada" := by
  simp only [matchConfirmed, decide_eq_true_eq] at h
  exact h.2.2.2

theorem matchPending_not_confirmed {fecha hora : String} {tv tv2 : TipoVal} {b : Booking}
    (h : matchPending fecha hora tv b = true) :
    matchConfirmed fecha hora tv2 b = false := by
  simp only [matchPending, decide_eq_true_eq] at h
  simp only [matchConfirmed, decide_eq_false_iff_not]
  rintro ⟨-, -, -, he⟩
  rcases h.2.2.2 with h1 | h1 <;> rw [h1] at he <;> simp at he

theorem matchAnyConfirmed_false_of_pending {fecha hora : String} {tipoNorm tv : TipoVal}
    {b : Booking} (h : matchPending fecha hora tv b = true) :
    matchAnyConfirmed fecha hora tipoNorm b = false := by
  simp only [matchAnyConfirmed, List.any_eq_false]
  intro tv2 _
  simp [matchPending_not_confirmed h]

/-
Counting lemmas: the id unions of the slot queries versus the plain
count of bookings occupying the slot.
-/

theorem length_filter_or_disjoint {α : Type} (l : List α) (p q : α → Bool)
    (h : ∀ a, p a = true → q a = false) :
    (l.filter (fun a => p a || q a)).length = (l.filter p).length + (l.filter q).length := by
  induction l with
  | nil => simp
  | cons a t ih =>
    by_cases hp : p a = true
    · simp [List.filter_cons, hp, h a hp, ih]
      omega
    · simp only [Bool.not_eq_true] at hp
      by_cases hq : q a = true
      · simp [List.filter_cons, hp, hq, ih]
        omega
      · simp only [Bool.not_eq_true] at hq
        simp [List.filter_cons, hp, hq, ih]

theorem length_filter_anyConfirmed (fecha hora : String) (resv : List Booking)
    (tvs : List TipoVal) (htvs : tvs.Nodup) :
    (resv.filter (fun b => tvs.any (fun tv => matchConfirmed fecha hora tv b))).length
      = (tvs.map (fun tv => (resv.filter (matchConfirmed fecha hora tv)).length)).sum := by
  induction tvs with
  | nil => simp
  | cons a tvs ih =>
    rcases List.nodup_cons.mp htvs with ⟨ha, htvs2⟩
    have hdisj : ∀ b : Booking, matchConfirmed fecha hora a b = true →
        (tvs.any (fun tv => matchConfirmed fecha hora tv b)) = false := by
      intro b hb
      simp only [List.any_eq_false]
      intro tv htv
      cases hc : matchConfirmed fecha hora tv b with
      | false => simp
      | true =>
        have e1 := matchConfirmed_tipo hb
        have e2 := matchConfirmed_tipo hc
        have hat : a = tv := by rw [← e1]; exact e2
        exact fun _ => absurd (hat ▸ htv) ha
    have hsplit :
        (resv.filter (fun b => (a :: tvs).any (fun tv => matchConfirmed fecha hora tv b))).length
          = (resv.filter (matchConfirmed fecha hora a)).length
            + (resv.filter (fun b => tvs.any (fun tv => matchConfirmed fecha hora tv b))).length := by
      have := length_filter_or_disjoint resv (matchConfirmed fecha hora a)
        (fun b => tvs.any (fun tv => matchConfirmed fecha hora tv b)) hdisj
      simpa [List.any_cons] using this
    rw [hsplit, ih htvs2]
    rw [List.map_cons, List.sum_cons]

theorem exists_of_mem_tr_bids {fecha hora : String} {resv : List Booking}
    {tr : TipoVal → List Booking}
    (htr : ∀ tv, (tr tv).Sublist (resv.filter (matchConfirmed fecha hora tv)))
    {tv : TipoVal} {x : Nat} (hx : x ∈ (tr tv).map Booking.bid) :
    ∃ b, b ∈ resv ∧ matchConfirmed fecha hora tv b = true ∧ b.bid = x := by
  rcases List.mem_map.mp hx with ⟨b, hb, rfl⟩
  have hb2 := (htr tv).subset hb
  rcases List.mem_filter.mp hb2 with ⟨hmem, hmatch⟩
  exact ⟨b, hmem, hmatch, rfl⟩

theorem nodup_flatMap_bids (fecha hora : String) (resv : List Booking)
    (hnd : (resv.map Booking.bid).Nodup) (tvs : List TipoVal) (htvs : tvs.Nodup)
    (tr : TipoVal → List Booking)
    (htr : ∀ tv, (tr tv).Sublist (resv.filter (matchConfirmed fecha hora tv))) :
    (tvs.flatMap (fun tv => (tr tv).map Booking.bid)).Nodup := by
  induction tvs with
  | nil => simp
  | cons a tvs ih =>
    rcases List.nodup_cons.mp htvs with ⟨ha, htvs2⟩
    have hone : ∀ tv : TipoVal, ((tr tv).map Booking.bid).Nodup := by
      intro tv
      exact hnd.sublist (((htr tv).trans (List.filter_sublist resv)).map Booking.bid)
    rw [List.flatMap_cons]
    refine List.Nodup.append (hone a) (ih htvs2) ?_
    intro x hxa hxr
    rcases List.mem_flatMap.mp hxr with ⟨tv, htv, hxtv⟩
    rcases exists_of_mem_tr_bids htr hxa with ⟨b1, hb1, hm1, he1⟩
    rcases exists_of_mem_tr_bids htr hxtv with ⟨b2, hb2, hm2, he2⟩
    have hb12 : b1 = b2 :=
      List.inj_on_of_nodup_map hnd hb1 hb2 (by rw [he1, he2])
    subst hb12
    have e1 := matchConfirmed_tipo hm1
    have e2 := matchConfirmed_tipo hm2
    have hat : a = tv := by rw [← e1]; exact e2
    exact ha (hat ▸ htv)

theorem length_dedup_flatMap_bids (fecha hora : String) (resv : List Booking)
    (hnd : (resv.map Booking.bid).Nodup) (tvs : List TipoVal) (htvs : tvs.Nodup)
    (tr : TipoVal → List Booking)
    (htr : ∀ tv, (tr tv).Sublist (resv.filter (matchConfirmed fecha hora tv))) :
    ((tvs.flatMap (fun tv => (tr tv).map Booking.bid)).dedup).length
      = (tvs.map (fun tv => (tr tv).length)).sum := by
  rw [List.dedup_eq_self.mpr (nodup_flatMap_bids fecha hora resv hnd tvs htvs tr htr)]
  rw [List.length_flatMap]
  simp [Function.comp_def]

theorem min_sum_le (lim : Nat) (cs : List Nat) :
    min lim cs.sum ≤ (cs.map (fun c => min lim c)).sum := by
  induction cs with
  | nil => simp
  | cons c cs ih =>
    simp only [List.sum_cons, List.map_cons]
    omega

theorem countConfirmedAtSlot_eq_slotCount (st : ServerState) (complejoId fecha : String)
    (tipo : TipoVal) (hora : String)
    (hnd : ((reservasOf st complejoId).map Booking.bid).Nodup) :
    countConfirmedAtSlot st complejoId fecha tipo hora
      = slotConfirmedCount st complejoId fecha (normalizeTipoForQuery tipo) hora := by
  simp only [countConfirmedAtSlot, slotConfirmedCount]
  rw [length_dedup_flatMap_bids fecha hora (reservasOf st complejoId) hnd _
    (queryTipos_nodup _)
    (fun tv => (reservasOf st complejoId).filter (matchConfirmed fecha hora tv))
    (fun tv => List.Sublist.refl _)]
  exact (length_filter_anyConfirmed fecha hora _ _ (queryTipos_nodup _)).symm

theorem capacidad_le_inTxCount (fecha hora : String) (tipoNorm : TipoVal)
    (resv : List Booking) (capacidad : Int)
    (hnd : (resv.map Booking.bid).Nodup)
    (h : capacidad ≤ ((resv.filter (matchAnyConfirmed fecha hora tipoNorm)).length : Int)) :
    capacidad ≤ ((inTxConfirmedBids resv fecha tipoNorm hora capacidad).length : Int) := by
  by_cases hc : capacidad ≤ 0
  · exact le_trans hc (by exact_mod_cast Nat.zero_le _)
  · push_neg at hc
    have hlen : (inTxConfirmedBids resv fecha tipoNorm hora capacidad).length
        = ((queryTipos tipoNorm).map
            (fun tv => ((resv.filter (matchConfirmed fecha hora tv)).take
              (capacidad + 2).toNat).length)).sum := by
      exact length_dedup_flatMap_bids fecha hora resv hnd _ (queryTipos_nodup _)
        (fun tv => (resv.filter (matchConfirmed fecha hora tv)).take (capacidad + 2).toNat)
        (fun tv => List.take_sublist _ _)
    have htrue : (resv.filter (matchAnyConfirmed fecha hora tipoNorm)).length
        = ((queryTipos tipoNorm).map
            (fun tv => (resv.filter (matchConfirmed fecha hora tv)).length)).sum := by
      exact length_filter_anyConfirmed fecha hora _ _ (queryTipos_nodup _)
    lift capacidad to Nat using hc.le with C
    have hC : 0 < C := by exact_mod_cast hc
    have hT : C ≤ (resv.filter (matchAnyConfirmed fecha hora tipoNorm)).length := by
      exact_mod_cast h
    have hlim : ((C : Int) + 2).toNat = C + 2 := by omega
    rw [hlim] at hlen
    have hmin := min_sum_le (C + 2)
      ((queryTipos tipoNorm).map (fun tv => (resv.filter (matchConfirmed fecha hora tv)).length))
    rw [← htrue] at hmin
    have htake : ((queryTipos tipoNorm).map
          (fun tv => ((resv.filter (matchConfirmed fecha hora tv)).take (C + 2)).length)).sum
        = (((queryTipos tipoNorm).map
            (fun tv => (resv.filter (matchConfirmed fecha hora tv)).length)).map
              (fun c => min (C + 2) c)).sum := by
      rw [List.map_map]
      congr 1
      apply List.map_congr_left
      intro tv _
      simp [List.length_take]
    rw [hlen, htake]
    have : C ≤ min (C + 2) (resv.filter (matchAnyConfirmed fecha hora tipoNorm)).length := by
      omega
    exact_mod_cast le_trans this hmin

theorem length_filter_append_one {α : Type} (l : List α) (b : α) (p : α → Bool) :
    ((l ++ [b]).filter p).length
      = (l.filter p).length + (if p b then 1 else 0) := by
  rw [List.filter_append]
  cases hb : p b <;> simp [List.filter_cons, hb]

theorem length_filter_map_flip (resv : List Booking) (b0 : Booking) (hmem : b0 ∈ resv)
    (hnd : (resv.map Booking.bid).Nodup) (p : Booking → Bool) (g : Booking → Booking)
    (hg0 : p (g b0) = true) (hb0 : p b0 = false) :
    ((resv.map (fun x => if x.bid = b0.bid then g x else x)).filter p).length
      = (resv.filter p).length + 1 := by
  rcases List.append_of_mem hmem with ⟨s, t, rfl⟩
  rw [List.map_append, List.map_cons] at hnd
  have hsb : ∀ x ∈ s, x.bid ≠ b0.bid := by
    intro x hx
    have hdisj := (List.nodup_append.mp hnd).2.2
    intro he
    exact hdisj (List.mem_map_of_mem Booking.bid hx)
      (he ▸ List.mem_cons_self _ _)
  have htb : ∀ x ∈ t, x.bid ≠ b0.bid := by
    intro x hx
    have hmid := (List.nodup_append.mp hnd).2.1
    intro he
    exact (List.nodup_cons.mp hmid).1 (he ▸ List.mem_map_of_mem Booking.bid hx)
  have hms : s.map (fun x => if x.bid = b0.bid then g x else x) = s := by
    conv_rhs => rw [← List.map_id' s]
    apply List.map_congr_left
    intro x hx
    simp [hsb x hx]
  have hmt : t.map (fun x => if x.bid = b0.bid then g x else x) = t := by
    conv_rhs => rw [← List.map_id' t]
    apply List.map_congr_left
    intro x hx
    simp [htb x hx]
  rw [List.map_append, List.map_cons, hms, hmt]
  have hcb : (if b0.bid = b0.bid then g b0 else b0) = g b0 := if_pos rfl
  rw [hcb, List.filter_append, List.filter_append, List.filter_cons, List.filter_cons,
    hg0, hb0]
  simp [List.length_append]
  omega

/-
Field lemmas for the two mutator writes and the pending lookup.
-/

theorem matchPending_fields {fecha hora : String} {tv : TipoVal} {b : Booking}
    (h : matchPending fecha hora tv b = true) :
    b.fecha = fecha ∧ b.tipo = tv ∧ b.hora = hora ∧
      (b.estado = "pending" ∨ b.estado = "pendiente") := by
  simpa [matchPending, decide_eq_true_eq] using h

theorem flip_bid (b : Booking) (payload : Payload) (now : Nat) :
    (flipToConfirmada b payload now).bid = b.bid := by
  cases h : payload.extras <;> simp [flipToConfirmada, applyExtras, h]

theorem flip_fecha (b : Booking) (payload : Payload) (now : Nat) :
    (flipToConfirmada b payload now).fecha = b.fecha := by
  cases h : payload.extras <;> simp [flipToConfirmada, applyExtras, h]

theorem flip_hora (b : Booking) (payload : Payload) (now : Nat) :
    (flipToConfirmada b payload now).hora = b.hora := by
  cases h : payload.extras <;> simp [flipToConfirmada, applyExtras, h]

theorem flip_tipo (b : Booking) (payload : Payload) (now : Nat) :
    (flipToConfirmada b payload now).tipo = b.tipo := by
  cases h : payload.extras <;> simp [flipToConfirmada, applyExtras, h]

theorem flip_estado (b : Booking) (payload : Payload) (now : Nat) :
    (flipToConfirmada b payload now).estado = "confirmada" := by
  cases h : payload.extras <;> simp [flipToConfirmada, applyExtras, h]

theorem flip_pago (b : Booking) (payload : Payload) (now : Nat) :
    (flipToConfirmada b payload now).pago = some payload.pago := by
  cases h : payload.extras <;> simp [flipToConfirmada, applyExtras, h]

theorem flip_updatedAt (b : Booking) (payload : Payload) (now : Nat) :
    (flipToConfirmada b payload now).updatedAt = some now := by
  cases h : payload.extras <;> simp [flipToConfirmada, applyExtras, h]

theorem mkNew_bid (fecha hora : String) (tipoNorm : TipoVal) (payload : Payload)
    (bid : Nat) (now : Nat) :
    (mkNewConfirmada fecha hora tipoNorm payload bid now).bid = bid := by
  cases h : payload.extras <;> simp [mkNewConfirmada, applyExtras, h]

theorem mkNew_fecha (fecha hora : String) (tipoNorm : TipoVal) (payload : Payload)
    (bid : Nat) (now : Nat) :
    (mkNewConfirmada fecha hora tipoNorm payload bid now).fecha = fecha := by
  cases h : payload.extras <;> simp [mkNewConfirmada, applyExtras, h]

theorem mkNew_hora (fecha hora : String) (tipoNorm : TipoVal) (payload : Payload)
    (bid : Nat) (now : Nat) :
    (mkNewConfirmada fecha hora tipoNorm payload bid now).hora = hora := by
  cases h : payload.extras <;> simp [mkNewConfirmada, applyExtras, h]

theorem mkNew_tipo (fecha hora : String) (tipoNorm : TipoVal) (payload : Payload)
    (bid : Nat) (now : Nat) :
    (mkNewConfirmada fecha hora tipoNorm payload bid now).tipo = tipoNorm := by
  cases h : payload.extras <;> simp [mkNewConfirmada, applyExtras, h]

theorem mkNew_estado (fecha hora : String) (tipoNorm : TipoVal) (payload : Payload)
    (bid : Nat) (now : Nat) :
    (mkNewConfirmada fecha hora tipoNorm payload bid now).estado = "confirmada" := by
  cases h : payload.extras <;> simp [mkNewConfirmada, applyExtras, h]

theorem mkNew_pago (fecha hora : String) (tipoNorm : TipoVal) (payload : Payload)
    (bid : Nat) (now : Nat) :
    (mkNewConfirmada fecha hora tipoNorm payload bid now).pago = some payload.pago := by
  cases h : payload.extras <;> simp [mkNewConfirmada, applyExtras, h]

theorem matchAnyConfirmed_flip {fecha hora : String} {tipoNorm tv : TipoVal} {b : Booking}
    (htv : tv ∈ queryTipos tipoNorm) (h : matchPending fecha hora tv b = true)
    (payload : Payload) (now : Nat) :
    matchAnyConfirmed fecha hora tipoNorm (flipToConfirmada b payload now) = true := by
  rcases matchPending_fields h with ⟨hf, ht, hh, -⟩
  simp only [matchAnyConfirmed, List.any_eq_true]
  refine ⟨tv, htv, ?_⟩
  simp [matchConfirmed, flip_fecha, flip_hora, flip_tipo, flip_estado, hf, ht, hh]

theorem matchAnyConfirmed_mkNew (fecha hora : String) (tipoNorm : TipoVal)
    (payload : Payload) (bid : Nat) (now : Nat) :
    matchAnyConfirmed fecha hora tipoNorm
      (mkNewConfirmada fecha hora tipoNorm payload bid now) = true := by
  simp only [matchAnyConfirmed, List.any_eq_true]
  refine ⟨tipoNorm, self_mem_queryTipos tipoNorm, ?_⟩
  simp [matchConfirmed, mkNew_fecha, mkNew_hora, mkNew_tipo, mkNew_estado]

theorem findFirstPending_some {resv : List Booking} {fecha hora : String}
    {tipoNorm : TipoVal} {b : Booking}
    (h : findFirstPending resv fecha hora tipoNorm = some b) :
    b ∈ resv ∧ ∃ tv ∈ queryTipos tipoNorm, matchPending fecha hora tv b = true := by
  rcases List.exists_of_findSome?_eq_some h with ⟨tv, htv, hfind⟩
  exact ⟨List.mem_of_find?_eq_some hfind, tv, htv, List.find?_some hfind⟩

/-
The capacity transaction: abort and commit characterizations.
-/

theorem confirmTx_full_error (st : ServerState) (complejoId fecha : String)
    (tipo : TipoVal) (hora : String) (mutator : Mutator)
    (h : capacidadInTx st.complejos complejoId (normalizeTipoForQuery tipo)
      ≤ ((inTxConfirmedBids (reservasOf st complejoId) fecha
          (normalizeTipoForQuery tipo) hora
          (capacidadInTx st.complejos complejoId (normalizeTipoForQuery tipo))).length : Int)) :
    confirmWithCapacityTx st complejoId fecha tipo hora mutator
      = Except.error "Sin cupos para ese horario" := by
  simp only [confirmWithCapacityTx]
  rw [if_pos h]

theorem upsert_full_error (st : ServerState) (complejoId fecha : String)
    (tipo : TipoVal) (hora : String) (payload : Payload) (now : Nat)
    (h : capacidadInTx st.complejos complejoId (normalizeTipoForQuery tipo)
      ≤ ((inTxConfirmedBids (reservasOf st complejoId) fecha
          (normalizeTipoForQuery tipo) hora
          (capacidadInTx st.complejos complejoId (normalizeTipoForQuery tipo))).length : Int)) :
    upsertConfirmedAtSlot st complejoId fecha tipo hora payload now
      = Except.error "Sin cupos para ese horario" :=
  confirmTx_full_error st complejoId fecha tipo hora _ h

theorem upsert_ok_spec {st st1 : ServerState} {complejoId fecha : String} {tipo : TipoVal}
    {hora : String} {payload : Payload} {now : Nat} {bid : Nat}
    (h : upsertConfirmedAtSlot st complejoId fecha tipo hora payload now
      = Except.ok (st1, bid)) :
    ((inTxConfirmedBids (reservasOf st complejoId) fecha (normalizeTipoForQuery tipo) hora
        (capacidadInTx st.complejos complejoId (normalizeTipoForQuery tipo))).length : Int)
      < capacidadInTx st.complejos complejoId (normalizeTipoForQuery tipo)
    ∧ st1.complejos = st.complejos
    ∧ st1.checks = st.checks
    ∧ st1.ledger = st.ledger
    ∧ (∀ cid2, cid2 ≠ complejoId → reservasOf st1 cid2 = reservasOf st cid2)
    ∧ (match findFirstPending (reservasOf st complejoId) fecha hora
          (normalizeTipoForQuery tipo) with
       | some b =>
          bid = b.bid ∧ st1.nextId = st.nextId ∧
          reservasOf st1 complejoId
            = (reservasOf st complejoId).map
                (fun x => if x.bid = b.bid then flipToConfirmada x payload now else x)
          ∧ st1.reservas
            = setA st.reservas complejoId
                ((reservasOf st complejoId).map
                  (fun x => if x.bid = b.bid then flipToConfirmada x payload now else x))
       | none =>
          bid = st.nextId ∧ st1.nextId = st.nextId + 1 ∧
          reservasOf st1 complejoId
            = reservasOf st complejoId
              ++ [mkNewConfirmada fecha hora (normalizeTipoForQuery tipo) payload
                  st.nextId now]
          ∧ st1.reservas
            = setA st.reservas complejoId
                (reservasOf st complejoId
                  ++ [mkNewConfirmada fecha hora (normalizeTipoForQuery tipo) payload
                      st.nextId now])) := by
  simp only [upsertConfirmedAtSlot, confirmWithCapacityTx] at h
  split at h
  · exact absurd h (by simp)
  · rename_i hcond
    cases hf : findFirstPending (reservasOf st complejoId) fecha hora
        (normalizeTipoForQuery tipo) with
    | some b =>
      rw [hf] at h
      simp only [Except.ok.injEq, Prod.mk.injEq] at h
      rcases h with ⟨hst, hbid⟩
      refine ⟨not_le.mp hcond, ?_, ?_, ?_, ?_, ?_⟩
      · rw [← hst]
      · rw [← hst]
      · rw [← hst]
      · intro cid2 hne
        rw [← hst]
        simp [reservasOf, lookupA_setA_ne _ _ _ _ (Ne.symm hne)]
      · refine ⟨hbid.symm, by rw [← hst], ?_, by rw [← hst]⟩
        rw [← hst]
        simp [reservasOf, lookupA_setA_self]
    | none =>
      rw [hf] at h
      simp only [Except.ok.injEq, Prod.mk.injEq] at h
      rcases h with ⟨hst, hbid⟩
      refine ⟨not_le.mp hcond, ?_, ?_, ?_, ?_, ?_⟩
      · rw [← hst]
      · rw [← hst]
      · rw [← hst]
      · intro cid2 hne
        rw [← hst]
        simp [reservasOf, lookupA_setA_ne _ _ _ _ (Ne.symm hne)]
      · refine ⟨?_, by rw [← hst], ?_, by rw [← hst]⟩
        · rw [← hbid]
          exact mkNew_bid _ _ _ _ _ _
        · rw [← hst]
          simp [reservasOf, lookupA_setA_self]

theorem WFres_mono {l : List Booking} {n1 n2 : Nat} (h : n1 ≤ n2) (hw : WFres l n1) :
    WFres l n2 :=
  ⟨hw.1, fun b hb => lt_of_lt_of_le (hw.2 b hb) h⟩

theorem map_bid_flip (resv : List Booking) (b : Booking) (payload : Payload) (now : Nat) :
    ((resv.map (fun x => if x.bid = b.bid then flipToConfirmada x payload now else x)).map
      Booking.bid) = resv.map Booking.bid := by
  rw [List.map_map]
  apply List.map_congr_left
  intro x _
  by_cases hx : x.bid = b.bid
  · simp [Function.comp, hx, flip_bid]
  · simp [Function.comp, hx]

/-- One committed confirm attempt: the store stays well-formed, the
facility collection is untouched, the slot occupancy grows by exactly
one, and the occupancy before the attempt was strictly below the
configured capacity. -/
theorem upsert_step {st st1 : ServerState} {complejoId fecha : String} {tipo : TipoVal}
    {hora : String} {payload : Payload} {now : Nat} {bid : Nat}
    (hWF : WF st)
    (h : upsertConfirmedAtSlot st complejoId fecha tipo hora payload now
      = Except.ok (st1, bid)) :
    WF st1 ∧ st1.complejos = st.complejos ∧
    slotConfirmedCount st1 complejoId fecha (normalizeTipoForQuery tipo) hora
      = slotConfirmedCount st complejoId fecha (normalizeTipoForQuery tipo) hora + 1 ∧
    ((slotConfirmedCount st complejoId fecha (normalizeTipoForQuery tipo) hora : Int)
      < capacidadInTx st.complejos complejoId (normalizeTipoForQuery tipo)) := by
  obtain ⟨hlt, hcom, -, -, -, hmut⟩ := upsert_ok_spec h
  have hres := WFres_of_WF hWF complejoId
  have hnd := hres.1
  have htc : ((slotConfirmedCount st complejoId fecha (normalizeTipoForQuery tipo) hora : Int)
      < capacidadInTx st.complejos complejoId (normalizeTipoForQuery tipo)) := by
    by_contra hcon
    push_neg at hcon
    exact absurd (capacidad_le_inTxCount fecha hora (normalizeTipoForQuery tipo)
      (reservasOf st complejoId) _ hnd hcon) (not_le.mpr hlt)
  cases hf : findFirstPending (reservasOf st complejoId) fecha hora
      (normalizeTipoForQuery tipo) with
  | some b =>
    simp only [hf] at hmut
    obtain ⟨-, hnid, hresv, hraw⟩ := hmut
    rcases findFirstPending_some hf with ⟨hmem, tv, htv, hpend⟩
    have hcount : slotConfirmedCount st1 complejoId fecha (normalizeTipoForQuery tipo) hora
        = slotConfirmedCount st complejoId fecha (normalizeTipoForQuery tipo) hora + 1 := by
      simp only [slotConfirmedCount]
      rw [hresv]
      exact length_filter_map_flip (reservasOf st complejoId) b hmem hnd
        (matchAnyConfirmed fecha hora (normalizeTipoForQuery tipo))
        (fun x => flipToConfirmada x payload now)
        (matchAnyConfirmed_flip htv hpend payload now)
        (matchAnyConfirmed_false_of_pending hpend)
    refine ⟨?_, hcom, hcount, htc⟩
    intro p hp
    rw [hraw] at hp
    rcases mem_setA hp with hp1 | hp1
    · rw [hp1, hnid]
      refine ⟨?_, ?_⟩
      · simp only
        rw [map_bid_flip]
        exact hres.1
      · intro y hy
        simp only at hy
        rcases List.mem_map.mp hy with ⟨x, hx, rfl⟩
        by_cases hxb : x.bid = b.bid
        · simp only [if_pos hxb, flip_bid]
          exact hxb ▸ hres.2 x hx
        · simp only [if_neg hxb]
          exact hres.2 x hx
    · exact hnid ▸ hWF p hp1
  | none =>
    simp only [hf] at hmut
    obtain ⟨-, hnid, hresv, hraw⟩ := hmut
    have hcount : slotConfirmedCount st1 complejoId fecha (normalizeTipoForQuery tipo) hora
        = slotConfirmedCount st complejoId fecha (normalizeTipoForQuery tipo) hora + 1 := by
      simp only [slotConfirmedCount]
      rw [hresv, length_filter_append_one, matchAnyConfirmed_mkNew]
      simp
    refine ⟨?_, hcom, hcount, htc⟩
    intro p hp
    rw [hraw] at hp
    rcases mem_setA hp with hp1 | hp1
    · rw [hp1, hnid]
      refine ⟨?_, ?_⟩
      · simp only
        rw [List.map_append, List.map_singleton, mkNew_bid]
        refine List.Nodup.append hres.1 (List.nodup_singleton _) ?_
        intro x hx hx2
        rcases List.mem_singleton.mp hx2 with rfl
        rcases List.mem_map.mp hx with ⟨y, hy, he⟩
        exact absurd he (Nat.ne_of_lt (hres.2 y hy))
      · intro y hy
        simp only at hy
        rcases List.mem_append.mp hy with hy1 | hy1
        · exact lt_trans (hres.2 y hy1) (Nat.lt_succ_self _)
        · rcases List.mem_singleton.mp hy1 with rfl
          rw [mkNew_bid]
          exact Nat.lt_succ_self _
    · exact hnid ▸ WFres_mono (Nat.le_succ _) (hWF p hp1)

/-- C1: for every slot (facility id, date, resource-type, time) and
every sequence of confirm attempts against that slot, the number of
bookings in the confirmed state for that slot never exceeds the
capacity configured for that resource-type: the capacity check and the
confirming write happen inside one transaction (confirmWithCapacityTx),
so starting from any well-formed store satisfying the bound, the bound
holds after any serialized sequence of attempts, however many of them
race. -/
theorem confirm_capacity_invariant (complejoId fecha : String) (tipo : TipoVal)
    (hora : String) (attempts : List (Payload × Nat)) (st : ServerState)
    (hWF : WF st)
    (hInit : ((slotConfirmedCount st complejoId fecha (normalizeTipoForQuery tipo) hora : Int)
      ≤ capacidadInTx st.complejos complejoId (normalizeTipoForQuery tipo))) :
    ((slotConfirmedCount (runAttempts complejoId fecha tipo hora st attempts)
        complejoId fecha (normalizeTipoForQuery tipo) hora : Int)
      ≤ capacidadInTx st.complejos complejoId (normalizeTipoForQuery tipo)) := by
  induction attempts generalizing st with
  | nil => simpa [runAttempts] using hInit
  | cons a rest ih =>
    simp only [runAttempts]
    cases hu : upsertConfirmedAtSlot st complejoId fecha tipo hora a.1 a.2 with
    | error e => exact ih st hWF hInit
    | ok r =>
      obtain ⟨st1, bid⟩ := r
      obtain ⟨hWF1, hcom, hcount, hlt⟩ := upsert_step hWF hu
      have hb : ((slotConfirmedCount st1 complejoId fecha (normalizeTipoForQuery tipo)
          hora : Int) ≤ capacidadInTx st1.complejos complejoId (normalizeTipoForQuery tipo)) := by
        rw [hcount, hcom]
        push_cast
        omega
      have := ih st1 hWF1 hb
      rw [hcom] at this
      exact this

/-- Witness for the capacity invariant at a concrete slot of capacity
one and three racing attempts. -/
theorem confirm_capacity_invariant_witness :
    WF w1State
    ∧ ((slotConfirmedCount w1State "c1" "2024-05-01" (normalizeTipoForQuery (.num 5))
        "18:00" : Int) ≤ capacidadInTx w1State.complejos "c1" (normalizeTipoForQuery (.num 5)))
    ∧ ((slotConfirmedCount (runAttempts "c1" "2024-05-01" (.num 5) "18:00" w1State w1Attempts)
        "c1" "2024-05-01" (normalizeTipoForQuery (.num 5)) "18:00" : Int)
      ≤ capacidadInTx w1State.complejos "c1" (normalizeTipoForQuery (.num 5))) :=
  ⟨by decide, by decide,
    confirm_capacity_invariant "c1" "2024-05-01" (.num 5) "18:00" w1Attempts w1State
      (by decide) (by decide)⟩

/-
Settlement helpers.
-/

theorem upsertDailySettlement_guard (st : ServerState) (complejoId fecha : String)
    (info : PaymentInfo) (now : Nat) (hg : complejoId = "" ∨ fecha = "") :
    upsertDailySettlement st complejoId fecha info now = st := by
  simp only [upsertDailySettlement]
  rw [if_pos hg]

theorem upsertDailySettlement_exists (st : ServerState) (complejoId fecha : String)
    (info : PaymentInfo) (now : Nat)
    (h : lineItemExists st complejoId fecha info.id = true) :
    upsertDailySettlement st complejoId fecha info now = st := by
  simp only [lineItemExists, Option.isSome_iff_exists] at h
  obtain ⟨item, hp⟩ := h
  simp only [upsertDailySettlement]
  split
  · rfl
  · rw [hp]

theorem upsertDailySettlement_writes (st : ServerState) (complejoId fecha : String)
    (info : PaymentInfo) (now : Nat) (hg : ¬(complejoId = "" ∨ fecha = "")) :
    lineItemExists (upsertDailySettlement st complejoId fecha info now)
      complejoId fecha info.id = true := by
  simp only [upsertDailySettlement]
  rw [if_neg hg]
  cases hp : lookupA st.ledger.pagos (complejoId, fecha, info.id) with
  | some item => simp [lineItemExists, hp]
  | none => simp [lineItemExists, hp, lookupA_setA_self]

/-- C3: recording a settlement is idempotent per payment id: when a
line item keyed by that payment id already exists under the
facility / day ledger, a second invocation returns without writing
anything, and in general running upsertDailySettlement twice with the
same payment record equals running it once, so all daily aggregate
counters (counts, charged, commission, net due) are unchanged by any
invocation after the first. -/
theorem settlement_idempotent (st : ServerState) (complejoId fecha : String)
    (info : PaymentInfo) (n1 n2 : Nat) :
    (lineItemExists st complejoId fecha info.id = true →
      upsertDailySettlement st complejoId fecha info n2 = st)
    ∧ upsertDailySettlement (upsertDailySettlement st complejoId fecha info n1)
        complejoId fecha info n2
      = upsertDailySettlement st complejoId fecha info n1 := by
  refine ⟨fun h => upsertDailySettlement_exists st complejoId fecha info n2 h, ?_⟩
  by_cases hg : complejoId = "" ∨ fecha = ""
  · rw [upsertDailySettlement_guard st complejoId fecha info n1 hg,
      upsertDailySettlement_guard st complejoId fecha info n2 hg]
  · exact upsertDailySettlement_exists _ complejoId fecha info n2
      (upsertDailySettlement_writes st complejoId fecha info n1 hg)

/-- Witness for the settlement idempotency at a concrete ledger that
already holds the line item of payment P9. -/
theorem settlement_idempotent_witness :
    lineItemExists w3State "c1" "2024-05-01" w3Info.id = true
    ∧ upsertDailySettlement w3State "c1" "2024-05-01" w3Info 9 = w3State
    ∧ upsertDailySettlement (upsertDailySettlement w3State "c1" "2024-05-01" w3Info 8)
        "c1" "2024-05-01" w3Info 9
      = upsertDailySettlement w3State "c1" "2024-05-01" w3Info 8 :=
  ⟨by decide,
    (settlement_idempotent w3State "c1" "2024-05-01" w3Info 8 9).1 (by decide),
    (settlement_idempotent w3State "c1" "2024-05-01" w3Info 8 9).2⟩

/-- C4: whenever the confirmed occupancy observed inside the
transaction has reached the capacity, the transaction aborts with the
capacity-exceeded outcome (the error the callers surface), and no
booking is created or modified by that attempt: the result is the same
error for every possible mutator, so the mutation step never runs and
the aborted transaction writes nothing. -/
theorem confirm_full_aborts (st : ServerState) (complejoId fecha : String)
    (tipo : TipoVal) (hora : String)
    (h : capacidadInTx st.complejos complejoId (normalizeTipoForQuery tipo)
      ≤ ((inTxConfirmedBids (reservasOf st complejoId) fecha
          (normalizeTipoForQuery tipo) hora
          (capacidadInTx st.complejos complejoId (normalizeTipoForQuery tipo))).length : Int)) :
    (∀ mutator : Mutator,
      confirmWithCapacityTx st complejoId fecha tipo hora mutator
        = Except.error "Sin cupos para ese horario")
    ∧ ∀ (payload : Payload) (now : Nat),
      upsertConfirmedAtSlot st complejoId fecha tipo hora payload now
        = Except.error "Sin cupos para ese horario" :=
  ⟨fun mutator => confirmTx_full_error st complejoId fecha tipo hora mutator h,
   fun payload now => upsert_full_error st complejoId fecha tipo hora payload now h⟩

/-- Witness for the abort-on-full behaviour at a concrete full slot. -/
theorem confirm_full_aborts_witness :
    (capacidadInTx w4State.complejos "c1" (normalizeTipoForQuery (.num 5))
      ≤ ((inTxConfirmedBids (reservasOf w4State "c1") "2024-05-01"
          (normalizeTipoForQuery (.num 5)) "18:00"
          (capacidadInTx w4State.complejos "c1" (normalizeTipoForQuery (.num 5)))).length : Int))
    ∧ upsertConfirmedAtSlot w4State "c1" "2024-05-01" (.num 5) "18:00"
        { pago := { mp_payment_id := "PX", status := "approved" } } 9
      = Except.error "Sin cupos para ese horario" :=
  ⟨by decide,
    (confirm_full_aborts w4State "c1" "2024-05-01" (.num 5) "18:00" (by decide)).2
      { pago := { mp_payment_id := "PX", status := "approved" } } 9⟩

/-- C8: a webhook delivery whose fetched payment record has any status
other than approved (rejected, pending, in process, ...) neither
creates nor alters any booking and records no settlement: the whole
store, bookings and ledger included, is returned unchanged. -/
theorem webhook_nonapproved_noop (st : ServerState) (typeParam : String)
    (paymentId : Option String) (info : PaymentInfo) (now : Nat)
    (h : info.status ≠ "approved") :
    webhookPost st typeParam paymentId info now = st := by
  simp only [webhookPost]
  split <;> simp [h]

/-- Witness for the webhook frame property on a concrete rejected
payment. -/
theorem webhook_nonapproved_noop_witness :
    w8Info.status ≠ "approved"
    ∧ webhookPost w8State "payment" (some "P8") w8Info 3 = w8State :=
  ⟨by decide, webhook_nonapproved_noop w8State "payment" (some "P8") w8Info 3 (by decide)⟩

/-- C7 counterexample: the claim extends the never-non-positive
guarantee to the capacity read performed inside the confirmation
transaction, but that read guards only against a falsy value (0), not
against a negative one: with a stored capacity of -2 for tipo 7 the
in-transaction read returns -2, a negative value. -/
theorem capacity_in_tx_negative :
    capacidadInTx c7State.complejos "c1" (normalizeTipoForQuery (.num 7)) = -2
    ∧ capacidadInTx c7State.complejos "c1" (normalizeTipoForQuery (.num 7)) < 0
    ∧ getCapacityForTipo c7State "c1" (.num 7) = 1 := by decide

/-- C7 (amended): getCapacityForTipo always returns a positive value
and returns the default 1 when the facility document or the
resource-type key (under either representation) is absent; the
capacity read inside the confirmation transaction also defaults the
absent and zero cases to 1 and is positive provided no stored capacity
value of the facility is negative (a negative stored value is returned
unchanged by the in-transaction read). -/
theorem capacity_lookup_positive (st : ServerState) (complejoId : String)
    (tipo tipoNorm : TipoVal) :
    0 < getCapacityForTipo st complejoId tipo
    ∧ (lookupA st.complejos complejoId = none →
        getCapacityForTipo st complejoId tipo = 1)
    ∧ (∀ c, lookupA st.complejos complejoId = some c →
        lookupA c.canchas (tipoValToString tipo) = none →
        lookupA c.canchas (jsStringOfNumber tipo) = none →
        getCapacityForTipo st complejoId tipo = 1)
    ∧ ((∀ p ∈ (match lookupA st.complejos complejoId with
          | some c => c.canchas
          | none => ([] : List (String × Int))), 0 ≤ p.2) →
        0 < capacidadInTx st.complejos complejoId tipoNorm) := by
  refine ⟨?_, ?_, ?_, ?_⟩
  · cases hc : lookupA st.complejos complejoId with
    | none => simp [getCapacityForTipo, hc]
    | some c =>
      simp only [getCapacityForTipo, hc]
      split
      · assumption
      · exact one_pos
  · intro h
    simp only [getCapacityForTipo, h]
  · intro c hc h1 h2
    simp only [getCapacityForTipo, hc]
    rw [h1, Option.none_orElse, h2]
    simp
  · intro hvals
    simp only [capacidadInTx]
    cases hc : lookupA st.complejos complejoId with
    | none =>
      simp only [hc, lookupA]
      norm_num
    | some c =>
      simp only [hc]
      rw [hc] at hvals
      cases h1 : lookupA c.canchas (tipoValToString tipoNorm) with
      | some v =>
        have hv : 0 ≤ v := hvals _ (mem_of_lookupA h1)
        rw [Option.some_orElse]
        simp only [Option.getD_some]
        split <;> omega
      | none =>
        rw [Option.none_orElse]
        cases h2 : lookupA c.canchas (jsStringOfNumber tipoNorm) with
        | some v =>
          have hv : 0 ≤ v := hvals _ (mem_of_lookupA h2)
          simp only [Option.getD_some]
          split <;> omega
        | none =>
          simp only [Option.getD_none]
          norm_num

/-- Witness for the amended capacity positivity at a concrete facility
with nonnegative configured capacities. -/
theorem capacity_lookup_positive_witness :
    0 < getCapacityForTipo w7State "c1" (.num 5)
    ∧ 0 < capacidadInTx w7State.complejos "c1" (.num 5) :=
  ⟨(capacity_lookup_positive w7State "c1" (.num 5) (.num 5)).1,
   (capacity_lookup_positive w7State "c1" (.num 5) (.num 5)).2.2.2 (by decide)⟩

/-- Recording a settlement never touches the checks collection. -/
theorem upsertDailySettlement_checks (st : ServerState) (complejoId fecha : String)
    (info : PaymentInfo) (now : Nat) :
    (upsertDailySettlement st complejoId fecha info now).checks = st.checks := by
  simp only [upsertDailySettlement]
  split
  · rfl
  · split <;> rfl

/-- C10: a check can leave the pending state at most once: both approve
and reject first require the check to exist with estado pending and
throw before any write otherwise (the error result carries no state, so
an already approved or rejected check is never mutated by either
operation), and a successful approve or reject moves estado off
pending, to approved or rejected respectively, so the approval side
effects run at most once per check. -/
theorem check_pending_at_most_once (st : ServerState) (checkId : String)
    (reviewer : Option String) (reason : Option String) (now : Nat) :
    (lookupA st.checks checkId = none →
      approveCheckAndConfirmReservation st checkId reviewer now
          = Except.error "Check no encontrado"
        ∧ rejectCheck st checkId reviewer reason now
          = Except.error "Check no encontrado")
    ∧ (∀ c, lookupA st.checks checkId = some c → c.estado ≠ "pending" →
      approveCheckAndConfirmReservation st checkId reviewer now
          = Except.error "El check no está pendiente"
        ∧ rejectCheck st checkId reviewer reason now
          = Except.error "El check no está pendiente")
    ∧ (∀ st1 r, approveCheckAndConfirmReservation st checkId reviewer now
          = Except.ok (st1, r) →
        ∃ c1, lookupA st1.checks checkId = some c1 ∧ c1.estado = "approved")
    ∧ (∀ st1 r, rejectCheck st checkId reviewer reason now = Except.ok (st1, r) →
        ∃ c1, lookupA st1.checks checkId = some c1 ∧ c1.estado = "rejected") := by
  refine ⟨?_, ?_, ?_, ?_⟩
  · intro h
    constructor
    · simp only [approveCheckAndConfirmReservation, h]
    · simp only [rejectCheck, h]
  · intro c hc hne
    constructor
    · simp only [approveCheckAndConfirmReservation, hc]
      rw [if_pos hne]
    · simp only [rejectCheck, hc]
      rw [if_pos hne]
  · intro st1 r h
    simp only [approveCheckAndConfirmReservation] at h
    split at h
    · simp at h
    · rename_i c2 heq
      split at h
      · simp at h
      · split at h
        · simp at h
        · split at h
          · simp at h
          · rename_i r2 hu
            simp only [Except.ok.injEq, Prod.mk.injEq] at h
            rcases h with ⟨hst, -⟩
            refine ⟨{ c2 with
              estado := "approved"
              reviewedAt := some now
              reviewedBy :=
                some (if reviewer.getD "" = "" then "check-bot" else reviewer.getD "") },
              ?_, rfl⟩
            rw [← hst, upsertDailySettlement_checks]
            simp only
            rw [lookupA_setA_self]
  · intro st1 r h
    simp only [rejectCheck] at h
    split at h
    · simp at h
    · rename_i c2 heq
      split at h
      · simp at h
      · simp only [Except.ok.injEq, Prod.mk.injEq] at h
        rcases h with ⟨hst, -⟩
        refine ⟨{ c2 with
          estado := "rejected"
          reviewedAt := some now
          reviewedBy := some (if reviewer.getD "" = "" then "check-bot" else reviewer.getD "")
          reason := some (if reason.getD "" = "" then "Rechazado" else reason.getD "") },
          ?_, rfl⟩
        rw [← hst]
        simp only
        rw [lookupA_setA_self]

/-- Witness for the pending-at-most-once property: the approve and
reject operations refuse an already approved check and a successful
reject moves the pending check to rejected. -/
theorem check_pending_at_most_once_witness :
    approveCheckAndConfirmReservation w10State "chA" none 4
        = Except.error "El check no está pendiente"
      ∧ rejectCheck w10State "chA" none none 4
        = Except.error "El check no está pendiente" :=
  (check_pending_at_most_once w10State "chA" none none 4).2.1
    { c9Check with estado := "approved" } (by decide) (by decide)

/-- When the observed occupancy is below capacity, the capacity
transaction commits. -/
theorem upsert_ok_of_room (st : ServerState) (complejoId fecha : String) (tipo : TipoVal)
    (hora : String) (payload : Payload) (now : Nat)
    (hRoom : ((inTxConfirmedBids (reservasOf st complejoId) fecha
        (normalizeTipoForQuery tipo) hora
        (capacidadInTx st.complejos complejoId (normalizeTipoForQuery tipo))).length : Int)
      < capacidadInTx st.complejos complejoId (normalizeTipoForQuery tipo)) :
    ∃ st1 bid, upsertConfirmedAtSlot st complejoId fecha tipo hora payload now
      = Except.ok (st1, bid) := by
  simp only [upsertConfirmedAtSlot, confirmWithCapacityTx]
  rw [if_neg (not_le.mpr hRoom)]
  exact ⟨_, _, rfl⟩

/-- An aborted capacity transaction always carries the capacity
message, and it aborts only when the observed occupancy has reached the
capacity. -/
theorem upsert_error_spec {st : ServerState} {complejoId fecha : String} {tipo : TipoVal}
    {hora : String} {payload : Payload} {now : Nat} {e : String}
    (h : upsertConfirmedAtSlot st complejoId fecha tipo hora payload now
      = Except.error e) :
    e = "Sin cupos para ese horario"
    ∧ capacidadInTx st.complejos complejoId (normalizeTipoForQuery tipo)
      ≤ ((inTxConfirmedBids (reservasOf st complejoId) fecha
          (normalizeTipoForQuery tipo) hora
          (capacidadInTx st.complejos complejoId (normalizeTipoForQuery tipo))).length : Int) := by
  simp only [upsertConfirmedAtSlot, confirmWithCapacityTx] at h
  split at h
  · rename_i hcond
    simp only [Except.error.injEq] at h
    exact ⟨h.symm, hcond⟩
  · split at h <;> simp at h

/-- C5: when a confirm attempt passes the capacity check, it touches
exactly one booking and the slot occupancy grows by exactly one: if a
provisional (pending / pendiente) booking matching the slot exists, the
first one found is transitioned to estado confirmada with the payment
sub-record and a fresh updatedAt written onto it and no booking is
added; if none exists, exactly one new booking is appended, created
directly in estado confirmada and carrying the payment sub-record. -/
theorem confirm_transition_or_create (st : ServerState) (complejoId fecha : String)
    (tipo : TipoVal) (hora : String) (payload : Payload) (now : Nat)
    (hWF : WF st)
    (hRoom : ((inTxConfirmedBids (reservasOf st complejoId) fecha
        (normalizeTipoForQuery tipo) hora
        (capacidadInTx st.complejos complejoId (normalizeTipoForQuery tipo))).length : Int)
      < capacidadInTx st.complejos complejoId (normalizeTipoForQuery tipo)) :
    ∃ st1 bid, upsertConfirmedAtSlot st complejoId fecha tipo hora payload now
        = Except.ok (st1, bid)
      ∧ slotConfirmedCount st1 complejoId fecha (normalizeTipoForQuery tipo) hora
          = slotConfirmedCount st complejoId fecha (normalizeTipoForQuery tipo) hora + 1
      ∧ ((∃ b, findFirstPending (reservasOf st complejoId) fecha hora
            (normalizeTipoForQuery tipo) = some b
          ∧ (b.estado = "pending" ∨ b.estado = "pendiente")
          ∧ bid = b.bid
          ∧ (reservasOf st1 complejoId).length = (reservasOf st complejoId).length
          ∧ reservasOf st1 complejoId
              = (reservasOf st complejoId).map
                  (fun x => if x.bid = b.bid then flipToConfirmada x payload now else x)
          ∧ (flipToConfirmada b payload now).estado = "confirmada"
          ∧ (flipToConfirmada b payload now).pago = some payload.pago
          ∧ (flipToConfirmada b payload now).updatedAt = some now)
        ∨ (findFirstPending (reservasOf st complejoId) fecha hora
              (normalizeTipoForQuery tipo) = none
          ∧ bid = st.nextId
          ∧ reservasOf st1 complejoId
              = reservasOf st complejoId
                ++ [mkNewConfirmada fecha hora (normalizeTipoForQuery tipo) payload
                    st.nextId now]
          ∧ (mkNewConfirmada fecha hora (normalizeTipoForQuery tipo) payload
              st.nextId now).estado = "confirmada"
          ∧ (mkNewConfirmada fecha hora (normalizeTipoForQuery tipo) payload
              st.nextId now).pago = some payload.pago)) := by
  obtain ⟨st1, bid, h⟩ :=
    upsert_ok_of_room st complejoId fecha tipo hora payload now hRoom
  obtain ⟨-, -, hcount, -⟩ := upsert_step hWF h
  obtain ⟨-, -, -, -, -, hmut⟩ := upsert_ok_spec h
  refine ⟨st1, bid, h, hcount, ?_⟩
  cases hf : findFirstPending (reservasOf st complejoId) fecha hora
      (normalizeTipoForQuery tipo) with
  | some b =>
    simp only [hf] at hmut
    obtain ⟨hbid, -, hresv, -⟩ := hmut
    rcases findFirstPending_some hf with ⟨-, tv, -, hpend⟩
    exact Or.inl ⟨b, rfl, (matchPending_fields hpend).2.2.2, hbid,
      by rw [hresv, List.length_map], hresv,
      flip_estado b payload now, flip_pago b payload now, flip_updatedAt b payload now⟩
  | none =>
    simp only [hf] at hmut
    obtain ⟨hbid, -, hresv, -⟩ := hmut
    exact Or.inr ⟨rfl, hbid, hresv,
      mkNew_estado fecha hora (normalizeTipoForQuery tipo) payload st.nextId now,
      mkNew_pago fecha hora (normalizeTipoForQuery tipo) payload st.nextId now⟩

/-- Witness for the transition-or-create behaviour at a concrete slot
holding one pending booking. -/
theorem confirm_transition_or_create_witness :
    WF w5State
    ∧ (((inTxConfirmedBids (reservasOf w5State "c1") "2024-05-01"
        (normalizeTipoForQuery (.num 5)) "18:00"
        (capacidadInTx w5State.complejos "c1" (normalizeTipoForQuery (.num 5)))).length : Int)
      < capacidadInTx w5State.complejos "c1" (normalizeTipoForQuery (.num 5)))
    ∧ ∃ st1 bid, upsertConfirmedAtSlot w5State "c1" "2024-05-01" (.num 5) "18:00"
        w5Payload 11 = Except.ok (st1, bid)
      ∧ slotConfirmedCount st1 "c1" "2024-05-01" (normalizeTipoForQuery (.num 5)) "18:00"
          = slotConfirmedCount w5State "c1" "2024-05-01"
              (normalizeTipoForQuery (.num 5)) "18:00" + 1 :=
  ⟨by decide, by decide,
    match confirm_transition_or_create w5State "c1" "2024-05-01" (.num 5) "18:00"
      w5Payload 11 (by decide) (by decide) with
    | ⟨st1, bid, h, hcount, _⟩ => ⟨st1, bid, h, hcount⟩⟩

/-- C6: for every store whose bookings may carry the resource-type
either as a number or as its string equivalent, the confirmed
occupancy count is the same whether the query supplies the
resource-type as the number n or as its equivalent text (any string
that normalizes to n, such as "5" for 5), and each physical booking is
counted exactly once: the id union of the representation queries
equals the plain count of bookings occupying the slot under either
representation. -/
theorem count_representation_equiv (st : ServerState) (complejoId fecha hora s : String)
    (n : Int) (hWF : WF st)
    (hnorm : normalizeTipoForQuery (.str s) = TipoVal.num n) :
    countConfirmedAtSlot st complejoId fecha (.num n) hora
        = countConfirmedAtSlot st complejoId fecha (.str s) hora
    ∧ countConfirmedAtSlot st complejoId fecha (.num n) hora
        = ((reservasOf st complejoId).filter
            (matchAnyConfirmed fecha hora (TipoVal.num n))).length := by
  have h2 : normalizeTipoForQuery (TipoVal.num n) = TipoVal.num n := rfl
  constructor
  · simp only [countConfirmedAtSlot, hnorm, h2]
  · rw [countConfirmedAtSlot_eq_slotCount st complejoId fecha (.num n) hora
      (WFres_of_WF hWF complejoId).1]
    rw [slotConfirmedCount, h2]

/-- Witness for the representation equivalence on a store holding the
same slot once under the numeric and once under the textual
representation: the query with 5 and the query with "5" both count
two bookings, each counted once. -/
theorem count_representation_equiv_witness :
    WF w6State
    ∧ normalizeTipoForQuery (.str "5") = TipoVal.num 5
    ∧ (countConfirmedAtSlot w6State "c1" "2024-05-01" (.num 5) "18:00"
          = countConfirmedAtSlot w6State "c1" "2024-05-01" (.str "5") "18:00"
      ∧ countConfirmedAtSlot w6State "c1" "2024-05-01" (.num 5) "18:00"
          = ((reservasOf w6State "c1").filter
              (matchAnyConfirmed "2024-05-01" "18:00" (TipoVal.num 5))).length) :=
  ⟨by decide, by decide,
    count_representation_equiv w6State "c1" "2024-05-01" "18:00" "5" 5
      (by decide) (by decide)⟩

/-- C2: upsertConfirmedAtSlot carries no idempotency marker scoped to
the payment id (contrary to the claimed check for a booking already
holding the approval id before transitioning or creating): evaluated at
the failing input — capacity 2, two deliveries of the same payment P1 —
the second invocation does not return the first booking id as a no-op
but creates a second confirmed booking, leaving two distinct confirmed
bookings that both carry payment id P1. -/
theorem confirm_not_idempotent_eval :
    countConfirmedAtSlot c2State2 "c1" "2024-05-01" (.num 5) "18:00" = 2
    ∧ c2Bid1 = some 0
    ∧ c2Bid2 = some 1
    ∧ (∀ b ∈ reservasOf c2State2 "c1", b.pago.map Pago.mp_payment_id = some "P1")
    ∧ (∀ b ∈ reservasOf c2State2 "c1", b.estado = "confirmada") := by decide

/-- Shape of the approve result on a valid pending check: success with
the literal ok-true value when the slot has room, the capacity error
when the slot is full. -/
theorem approve_result_shape (st : ServerState) (checkId : String) (c : Check)
    (reviewer : Option String) (now : Nat)
    (hc : lookupA st.checks checkId = some c)
    (hp : c.estado = "pending")
    (hcomp : ¬(c.userId.getD "" = "" ∨ c.complejoId.getD "" = "" ∨ c.fecha.getD "" = ""
      ∨ c.hora.getD "" = "" ∨ c.monto.getD 0 = 0)) :
    (((inTxConfirmedBids (reservasOf st (c.complejoId.getD "")) (c.fecha.getD "")
        (normalizeTipoForQuery (checkTipoOf c)) (c.hora.getD "")
        (capacidadInTx st.complejos (c.complejoId.getD "")
          (normalizeTipoForQuery (checkTipoOf c)))).length : Int)
        < capacidadInTx st.complejos (c.complejoId.getD "")
            (normalizeTipoForQuery (checkTipoOf c)) →
      ∃ st3, approveCheckAndConfirmReservation st checkId reviewer now
        = Except.ok (st3, true))
    ∧ (capacidadInTx st.complejos (c.complejoId.getD "")
          (normalizeTipoForQuery (checkTipoOf c))
        ≤ ((inTxConfirmedBids (reservasOf st (c.complejoId.getD "")) (c.fecha.getD "")
            (normalizeTipoForQuery (checkTipoOf c)) (c.hora.getD "")
            (capacidadInTx st.complejos (c.complejoId.getD "")
              (normalizeTipoForQuery (checkTipoOf c)))).length : Int) →
      approveCheckAndConfirmReservation st checkId reviewer now
        = Except.error "Sin cupos para ese horario") := by
  constructor
  · intro hroom
    simp only [approveCheckAndConfirmReservation, hc]
    rw [if_neg (by simp [hp]), if_neg hcomp]
    obtain ⟨st1, bid, hu⟩ := upsert_ok_of_room st (c.complejoId.getD "") (c.fecha.getD "")
      (checkTipoOf c) (c.hora.getD "") (approvePayload checkId c reviewer now) now hroom
    rw [hu]
    exact ⟨_, rfl⟩
  · intro hfull
    simp only [approveCheckAndConfirmReservation, hc]
    rw [if_neg (by simp [hp]), if_neg hcomp]
    rw [upsert_full_error st (c.complejoId.getD "") (c.fecha.getD "") (checkTipoOf c)
      (c.hora.getD "") (approvePayload checkId c reviewer now) now hfull]

/-- C9 (amended): on a manual approval of a pending, complete check,
if the slot has remaining capacity the call succeeds, but its success
response is the bare JSON ok-true object, which does not carry the id
of the booking that was confirmed (the id returned by the transition
engine is discarded); if the slot is at capacity the endpoint answers
HTTP 400 — the same status as every other failure, not 409 — with the
distinct capacity message the reviewer can be shown. -/
theorem approve_check_responses (st : ServerState) (checkId : String) (c : Check)
    (reviewer : Option String) (now : Nat)
    (hc : lookupA st.checks checkId = some c)
    (hp : c.estado = "pending")
    (hcomp : ¬(c.userId.getD "" = "" ∨ c.complejoId.getD "" = "" ∨ c.fecha.getD "" = ""
      ∨ c.hora.getD "" = "" ∨ c.monto.getD 0 = 0)) :
    (((inTxConfirmedBids (reservasOf st (c.complejoId.getD "")) (c.fecha.getD "")
        (normalizeTipoForQuery (checkTipoOf c)) (c.hora.getD "")
        (capacidadInTx st.complejos (c.complejoId.getD "")
          (normalizeTipoForQuery (checkTipoOf c)))).length : Int)
        < capacidadInTx st.complejos (c.complejoId.getD "")
            (normalizeTipoForQuery (checkTipoOf c)) →
      (checksApprovePost st checkId reviewer now).2 = HttpResp.okJson true)
    ∧ (capacidadInTx st.complejos (c.complejoId.getD "")
          (normalizeTipoForQuery (checkTipoOf c))
        ≤ ((inTxConfirmedBids (reservasOf st (c.complejoId.getD "")) (c.fecha.getD "")
            (normalizeTipoForQuery (checkTipoOf c)) (c.hora.getD "")
            (capacidadInTx st.complejos (c.complejoId.getD "")
              (normalizeTipoForQuery (checkTipoOf c)))).length : Int) →
      (checksApprovePost st checkId reviewer now).2
        = HttpResp.errJson 400 "Sin cupos para ese horario") := by
  obtain ⟨hok, herr⟩ := approve_result_shape st checkId c reviewer now hc hp hcomp
  constructor
  · intro hroom
    obtain ⟨st3, h3⟩ := hok hroom
    simp only [checksApprovePost, h3]
  · intro hfull
    simp only [checksApprovePost, herr hfull]

/-- C9 counterexample: the success response of the approve endpoint
does not carry the id of the confirmed booking, and the
capacity-conflict response status is the same 400 used for generic
failures: two approvals that confirm different bookings (booking 0 in
one store, booking 5 in the other) produce identical success
responses, and the capacity conflict shares its 400 status with the
check-not-found failure. -/
theorem approve_response_lacks_booking_id :
    (checksApprovePost c9StateA "ch1" none 10).2 = (checksApprovePost c9StateB "ch1" none 10).2
    ∧ confirmedBidsOf (checksApprovePost c9StateA "ch1" none 10).1 "c1" = [0]
    ∧ confirmedBidsOf (checksApprovePost c9StateB "ch1" none 10).1 "c1" = [5]
    ∧ (checksApprovePost c9StateFull "ch1" none 10).2
        = HttpResp.errJson 400 "Sin cupos para ese horario"
    ∧ (checksApprovePost c9StateA "chMissing" none 10).2
        = HttpResp.errJson 400 "Check no encontrado" := by decide

/-- Witness for the amended approve responses on concrete stores with
a free and a full slot. -/
theorem approve_check_responses_witness :
    (checksApprovePost c9StateA "ch1" none 10).2 = HttpResp.okJson true
    ∧ (checksApprovePost c9StateFull "ch1" none 10).2
        = HttpResp.errJson 400 "Sin cupos para ese horario" :=
  ⟨(approve_check_responses c9StateA "ch1" c9Check none 10 (by decide) (by decide)
      (by decide)).1 (by decide),
   (approve_check_responses c9StateFull "ch1" c9Check none 10 (by decide) (by decide)
      (by decide)).2 (by decide)⟩

end FutbolMP
